import Mathlib

/-!
Verification development for the `FastTransformInterceptor` transform engine
(`src/interceptors/fast-transform.interceptor.ts`, defensive revision).

The JavaScript runtime values are shallowly embedded as the inductive type
`JsVal`; the engine's metadata records (`prepareField` output) as `FieldMeta`;
the raw decorator/OpenAPI metadata as `RawField`/`RawType`.  Fallible code
(`throw`) is modelled with `Except`.

Modelling notes for the ambient JavaScript semantics:
* `JsVal` has no function values, so the ORM materialization hook branch
  (`typeof obj.get === 'function'`) of `transform` is vacuous and omitted;
  all claims are about plain-record inputs.
* JS numbers are modelled as exact rationals plus a separate `nan` value;
  IEEE rounding is not modelled (no claim depends on it).  The decimal
  string-to-number parser models finite decimal literals (sign, digits,
  optional fraction); hex/exponent forms are not modelled.
* `Date` is a (possibly invalid) millisecond timestamp; `Date.parse` of a
  string is modelled as always failing (no claim depends on a date string
  parsing successfully), and the string form of a valid date is a
  placeholder (no claim observes it).
* `hasOwnProperty` is modelled as key membership on plain objects only
  (boxed-primitive own properties such as `"abc".length` are not modelled).
* Structural equality `jsEq` models `Array.prototype.includes`'s
  SameValueZero on the primitive values that enum members are.
-/

namespace FastTransform

/-- A JavaScript runtime value.  `undef` is the absent-sentinel `undefined`;
`nan` is the not-a-number number; `date none` is an Invalid Date;
`sym` is a unique symbol token. -/
inductive JsVal : Type where
  | undef : JsVal
  | null : JsVal
  | num (val : ℚ) : JsVal
  | nan : JsVal
  | str (s : String) : JsVal
  | bool (b : Bool) : JsVal
  | bigint (i : ℤ) : JsVal
  | sym (id : Nat) : JsVal
  | date (time : Option ℤ) : JsVal
  | obj (fields : List (String × JsVal)) : JsVal
  | arr (elems : List JsVal) : JsVal

/-- The JS `typeof` operator. -/
def jsTypeof : JsVal → String
  | .undef => "undefined"
  | .null => "object"
  | .num _ => "number"
  | .nan => "number"
  | .str _ => "string"
  | .bool _ => "boolean"
  | .bigint _ => "bigint"
  | .sym _ => "symbol"
  | .date _ => "object"
  | .obj _ => "object"
  | .arr _ => "object"

/-- Whether the value is exactly `undefined` (JS `=== undefined`). -/
def isUndefV : JsVal → Bool
  | .undef => true
  | _ => false

/-- Whether the value is exactly `null` (JS `=== null`). -/
def isNullV : JsVal → Bool
  | .null => true
  | _ => false

/-- JS `Array.isArray`. -/
def isJsArray : JsVal → Bool
  | .arr _ => true
  | _ => false

/-- First binding of a key in an object's field list (JS objects have unique
keys; the model takes the first occurrence). -/
def lookupField : List (String × JsVal) → String → Option JsVal
  | [], _ => none
  | (k, v) :: rest, key => if k = key then some v else lookupField rest key

/-- JS `obj.hasOwnProperty(key)`, on plain objects. -/
def hasOwn : JsVal → String → Bool
  | .obj fields, key => (lookupField fields key).isSome
  | _, _ => false

/-- JS property read `obj[key]`: the stored value, or `undefined` when the
key is absent or the value is not a plain object. -/
def getProp (v : JsVal) (key : String) : JsVal :=
  match v with
  | .obj fields => (lookupField fields key).getD .undef
  | _ => .undef

mutual

/-- Structural value equality, modelling SameValueZero (as used by
`Array.prototype.includes`); note `jsEq nan nan = true`.  On objects and
arrays JS compares references; the model compares structurally, which
agrees on the primitive values enum members are. -/
def jsEq : JsVal → JsVal → Bool
  | .undef, .undef => true
  | .null, .null => true
  | .num a, .num b => a == b
  | .nan, .nan => true
  | .str a, .str b => a == b
  | .bool a, .bool b => a == b
  | .bigint a, .bigint b => a == b
  | .sym a, .sym b => a == b
  | .date a, .date b => a == b
  | .obj a, .obj b => jsEqFields a b
  | .arr a, .arr b => jsEqList a b
  | _, _ => false

/-- Elementwise `jsEq` on arrays. -/
def jsEqList : List JsVal → List JsVal → Bool
  | [], [] => true
  | a :: xs, b :: ys => jsEq a b && jsEqList xs ys
  | _, _ => false

/-- Entrywise `jsEq` on object field lists. -/
def jsEqFields : List (String × JsVal) → List (String × JsVal) → Bool
  | [], [] => true
  | (k1, v1) :: r1, (k2, v2) :: r2 => k1 == k2 && jsEq v1 v2 && jsEqFields r1 r2
  | _, _ => false

end

/-- JS `list.includes(v)` with SameValueZero. -/
def jsIncludes (l : List JsVal) (v : JsVal) : Bool :=
  l.any (fun x => jsEq x v)

/-! ### String-to-number parsing (the relevant fragment of JS `Number(string)`) -/

/-- The character code of a full stop. -/
def isDotChar (c : Char) : Bool := c = Char.ofNat 46

/-- The character code of a minus sign. -/
def isMinusChar (c : Char) : Bool := c = Char.ofNat 45

/-- The character code of a plus sign. -/
def isPlusChar (c : Char) : Bool := c = Char.ofNat 43

/-- Numeric value of a list of decimal digit characters (callers ensure all
characters are digits; the empty list counts as 0). -/
def decDigitsNum (cs : List Char) : Nat :=
  cs.foldl (fun acc c => acc * 10 + (c.toNat - 48)) 0

/-- Parse an unsigned decimal literal (`digits`, `digits.digits`, `.digits`,
`digits.`) to a rational.  Hex and exponent forms are not modelled. -/
def parseUnsignedDec (cs : List Char) : Option ℚ :=
  let intPart := cs.takeWhile (fun c => c.isDigit)
  let rest := cs.dropWhile (fun c => c.isDigit)
  if rest.isEmpty then
    if intPart.isEmpty then none else some ((decDigitsNum intPart : ℚ))
  else if isDotChar (rest.headD (Char.ofNat 32)) then
    let frac := rest.tail
    if frac.all (fun c => c.isDigit) && !(intPart.isEmpty && frac.isEmpty) then
      some ((decDigitsNum intPart : ℚ) + (decDigitsNum frac : ℚ) / ((10 : ℚ) ^ frac.length))
    else none
  else none

/-- Parse an optionally signed decimal literal. -/
def parseSignedDec : List Char → Option ℚ
  | [] => none
  | c :: rest =>
    if isMinusChar c then (parseUnsignedDec rest).map (fun q => -q)
    else if isPlusChar c then parseUnsignedDec rest
    else parseUnsignedDec (c :: rest)

/-- Trim leading and trailing whitespace from a character list. -/
def trimChars (cs : List Char) : List Char :=
  ((cs.dropWhile Char.isWhitespace).reverse.dropWhile Char.isWhitespace).reverse

/-- JS `Number(string)`: trimmed empty string is 0; an unparsable string is
NaN. -/
def jsStringToNumber (s : String) : JsVal :=
  let cs := trimChars s.toList
  if cs.isEmpty then .num 0
  else
    match parseSignedDec cs with
    | some q => .num q
    | none => .nan

/-- Parse a signed integer literal for `BigInt(string)`. -/
def parseBigIntChars : List Char → Option ℤ
  | [] => none
  | c :: rest =>
    if isMinusChar c then
      if !rest.isEmpty && rest.all (fun x => x.isDigit) then
        some (-(decDigitsNum rest : ℤ))
      else none
    else if isPlusChar c then
      if !rest.isEmpty && rest.all (fun x => x.isDigit) then
        some ((decDigitsNum rest : ℤ))
      else none
    else if (c :: rest).all (fun x => x.isDigit) then
      some ((decDigitsNum (c :: rest) : ℤ))
    else none

/-- JS `BigInt(string)` semantics on the decimal fragment: trimmed empty
string is 0, otherwise a signed integer literal; anything else throws
(`none`). -/
def jsStringToBigInt (s : String) : Option ℤ :=
  let cs := trimChars s.toList
  if cs.isEmpty then some 0 else parseBigIntChars cs

/-- Display form of a rational for `String(number)`; exact for the integers
every claim uses (non-integer rationals get a fraction form, a model
placeholder for IEEE decimal printing, observed by no claim). -/
def ratToDisplay (q : ℚ) : String :=
  if q.den = 1 then toString q.num else toString q.num ++ "/" ++ toString q.den

mutual

/-- The abstract JS ToString operation: throws (`Except.error`) on symbols,
joins arrays with commas. -/
def jsToStringX : JsVal → Except Unit String
  | .undef => .ok "undefined"
  | .null => .ok "null"
  | .bool b => .ok (cond b "true" "false")
  | .num q => .ok (ratToDisplay q)
  | .nan => .ok "NaN"
  | .str s => .ok s
  | .bigint i => .ok (toString i)
  | .sym _ => .error ()
  | .date none => .ok "Invalid Date"
  | .date (some t) => .ok ("Date(" ++ toString t ++ ")")
  | .obj _ => .ok "[object Object]"
  | .arr elems => joinElems elems

/-- `Array.prototype.join(",")`: `null` and `undefined` elements become the
empty string, other elements go through ToString (which throws on
symbols). -/
def joinElems : List JsVal → Except Unit String
  | [] => .ok ""
  | [e] => elemStr e
  | e :: rest => do
    let s ← elemStr e
    let r ← joinElems rest
    .ok (s ++ "," ++ r)

/-- One element's contribution to a join. -/
def elemStr : JsVal → Except Unit String
  | .undef => .ok ""
  | .null => .ok ""
  | v => jsToStringX v

end

/-- The JS `String(value)` function: unlike the abstract ToString operation
it accepts symbols. -/
def jsStringFn (v : JsVal) : Except Unit String :=
  match v with
  | .sym i => .ok ("Symbol(" ++ toString i ++ ")")
  | _ => jsToStringX v

/-- JS `Number(value)`: throws on symbols (and on arrays whose join
throws). -/
def jsToNumber : JsVal → Except Unit JsVal
  | .undef => .ok .nan
  | .null => .ok (.num 0)
  | .bool b => .ok (.num (cond b 1 0))
  | .num q => .ok (.num q)
  | .nan => .ok .nan
  | .str s => .ok (jsStringToNumber s)
  | .bigint i => .ok (.num (i : ℚ))
  | .sym _ => .error ()
  | .date none => .ok .nan
  | .date (some t) => .ok (.num (t : ℚ))
  | .obj _ => .ok .nan
  | .arr elems =>
    match joinElems elems with
    | .ok s => .ok (jsStringToNumber s)
    | .error e => .error e

/-- JS `Boolean(value)`: total, never throws. -/
def jsToBoolean : JsVal → Bool
  | .undef => false
  | .null => false
  | .num q => q != 0
  | .nan => false
  | .str s => !s.isEmpty
  | .bool b => b
  | .bigint i => i != 0
  | .sym _ => true
  | .date _ => true
  | .obj _ => true
  | .arr _ => true

/-- JS `BigInt(value)`: throws on `undefined`, `null`, NaN, non-integer
numbers, unparsable strings, symbols, dates and plain objects. -/
def jsToBigInt : JsVal → Except Unit JsVal
  | .undef => .error ()
  | .null => .error ()
  | .bool b => .ok (.bigint (cond b 1 0))
  | .num q => if q.den = 1 then .ok (.bigint q.num) else .error ()
  | .nan => .error ()
  | .str s =>
    match jsStringToBigInt s with
    | some i => .ok (.bigint i)
    | none => .error ()
  | .bigint i => .ok (.bigint i)
  | .sym _ => .error ()
  | .date _ => .error ()
  | .obj _ => .error ()
  | .arr elems =>
    match joinElems elems with
    | .ok s =>
      match jsStringToBigInt s with
      | some i => .ok (.bigint i)
      | none => .error ()
    | .error e => .error e

/-- Truncate a rational toward zero (JS TimeClip / ToIntegerOrInfinity on
the fractional millisecond counts no claim uses). -/
def ratTruncToInt (q : ℚ) : ℤ := q.num / (q.den : ℤ)

/-- JS `Date.parse` on strings, modelled as recognizing no format (no claim
depends on a date string parsing successfully). -/
def jsDateParse (_ : String) : Option ℤ := none

/-- JS `new Date(value)`: throws on bigints and symbols; NaN and
unparsable strings give an Invalid Date; `null` and booleans coerce to a
millisecond count.  The millisecond range clip is not modelled. -/
def jsToDate : JsVal → Except Unit JsVal
  | .undef => .ok (.date none)
  | .null => .ok (.date (some 0))
  | .bool b => .ok (.date (some (cond b 1 0)))
  | .num q => .ok (.date (some (ratTruncToInt q)))
  | .nan => .ok (.date none)
  | .str s => .ok (.date (jsDateParse s))
  | .bigint _ => .error ()
  | .sym _ => .error ()
  | .date t => .ok (.date t)
  | .obj _ => .ok (.date (jsDateParse "[object Object]"))
  | .arr elems =>
    match joinElems elems with
    | .ok s => .ok (.date (jsDateParse s))
    | .error e => .error e

/-! ### Field metadata (the output of `prepareField`) -/

/-- A prepared field descriptor, mirroring the record built by
`prepareField`: the kind booleans, the merged `noCheck` flag, the expected
primitive type name (set only for primitives and primitive arrays), the
enum value list (`Object.values(metadata.enum)`), the referenced DTO class
name (`type.name` respectively `type[0].name`, used as the schema cache
key), and the prepared inline nested field map. -/
inductive FieldMeta : Type where
  | mk (required : Bool) (nullable : Bool) (noCheck : Bool) (isEnum : Bool)
      (isPrimitive : Bool) (isClass : Bool) (isArrayOfClass : Bool)
      (isArrayOfPrimitive : Bool) (isNestedObject : Bool)
      (expectedType : Option String) (enumValues : List JsVal)
      (refName : String) (nestedFields : List (String × FieldMeta)) : FieldMeta

def FieldMeta.required : FieldMeta → Bool
  | .mk r _ _ _ _ _ _ _ _ _ _ _ _ => r

def FieldMeta.nullable : FieldMeta → Bool
  | .mk _ n _ _ _ _ _ _ _ _ _ _ _ => n

def FieldMeta.noCheck : FieldMeta → Bool
  | .mk _ _ n _ _ _ _ _ _ _ _ _ _ => n

def FieldMeta.isEnum : FieldMeta → Bool
  | .mk _ _ _ e _ _ _ _ _ _ _ _ _ => e

def FieldMeta.isPrimitive : FieldMeta → Bool
  | .mk _ _ _ _ p _ _ _ _ _ _ _ _ => p

def FieldMeta.isClass : FieldMeta → Bool
  | .mk _ _ _ _ _ c _ _ _ _ _ _ _ => c

def FieldMeta.isArrayOfClass : FieldMeta → Bool
  | .mk _ _ _ _ _ _ a _ _ _ _ _ _ => a

def FieldMeta.isArrayOfPrimitive : FieldMeta → Bool
  | .mk _ _ _ _ _ _ _ a _ _ _ _ _ => a

def FieldMeta.isNestedObject : FieldMeta → Bool
  | .mk _ _ _ _ _ _ _ _ n _ _ _ _ => n

def FieldMeta.expectedType : FieldMeta → Option String
  | .mk _ _ _ _ _ _ _ _ _ t _ _ _ => t

def FieldMeta.enumValues : FieldMeta → List JsVal
  | .mk _ _ _ _ _ _ _ _ _ _ e _ _ => e

def FieldMeta.refName : FieldMeta → String
  | .mk _ _ _ _ _ _ _ _ _ _ _ r _ => r

def FieldMeta.nestedFields : FieldMeta → List (String × FieldMeta)
  | .mk _ _ _ _ _ _ _ _ _ _ _ _ f => f

/-- The `typeCheck` bitmask computed by `prepareField`
(`isPrimitive | isClass<<1 | isArrayOfClass<<2 | isEnum<<3 |
isArrayOfPrimitive<<4 | isNestedObject<<5`); the bits are disjoint so the
bitwise or is a sum. -/
def FieldMeta.typeCheck (m : FieldMeta) : Nat :=
  (cond m.isPrimitive 1 0) + (cond m.isClass 2 0) + (cond m.isArrayOfClass 4 0) +
    (cond m.isEnum 8 0) + (cond m.isArrayOfPrimitive 16 0) +
    (cond m.isNestedObject 32 0)

section
variable (r n nc e p c ac ap nest : Bool) (et : Option String)
  (ev : List JsVal) (rn : String) (nf : List (String × FieldMeta))

@[simp] theorem FieldMeta.required_mk :
    (FieldMeta.mk r n nc e p c ac ap nest et ev rn nf).required = r := rfl

@[simp] theorem FieldMeta.nullable_mk :
    (FieldMeta.mk r n nc e p c ac ap nest et ev rn nf).nullable = n := rfl

@[simp] theorem FieldMeta.noCheck_mk :
    (FieldMeta.mk r n nc e p c ac ap nest et ev rn nf).noCheck = nc := rfl

@[simp] theorem FieldMeta.isEnum_mk :
    (FieldMeta.mk r n nc e p c ac ap nest et ev rn nf).isEnum = e := rfl

@[simp] theorem FieldMeta.isPrimitive_mk :
    (FieldMeta.mk r n nc e p c ac ap nest et ev rn nf).isPrimitive = p := rfl

@[simp] theorem FieldMeta.isClass_mk :
    (FieldMeta.mk r n nc e p c ac ap nest et ev rn nf).isClass = c := rfl

@[simp] theorem FieldMeta.isArrayOfClass_mk :
    (FieldMeta.mk r n nc e p c ac ap nest et ev rn nf).isArrayOfClass = ac := rfl

@[simp] theorem FieldMeta.isArrayOfPrimitive_mk :
    (FieldMeta.mk r n nc e p c ac ap nest et ev rn nf).isArrayOfPrimitive = ap := rfl

@[simp] theorem FieldMeta.isNestedObject_mk :
    (FieldMeta.mk r n nc e p c ac ap nest et ev rn nf).isNestedObject = nest := rfl

@[simp] theorem FieldMeta.expectedType_mk :
    (FieldMeta.mk r n nc e p c ac ap nest et ev rn nf).expectedType = et := rfl

@[simp] theorem FieldMeta.enumValues_mk :
    (FieldMeta.mk r n nc e p c ac ap nest et ev rn nf).enumValues = ev := rfl

@[simp] theorem FieldMeta.refName_mk :
    (FieldMeta.mk r n nc e p c ac ap nest et ev rn nf).refName = rn := rfl

@[simp] theorem FieldMeta.nestedFields_mk :
    (FieldMeta.mk r n nc e p c ac ap nest et ev rn nf).nestedFields = nf := rfl

end

/-- A prepared schema: the ordered field-name-to-descriptor map
(`prepareMetadata` output, the `filter` the engine walks). -/
abbrev Filter := List (String × FieldMeta)

/-- The schema cache at transform time: the prepared filter for each DTO
class name (`transformDtoFilter` reads the memoized entry; the cache is
modelled as the total map it has become once the needed types are
resolved). -/
abbrev Env := String → Filter

/-- The structured error raised by the engine.  The source's `filter`
diagnostic slot (the enclosing filter or field metadata record) is omitted
from the model; an `undefined` constructor argument is modelled as `none`,
an explicit value as `some`. -/
inductive TransformError : Type where
  | mk (message : String) (dtoName : String) (fieldName : String)
      (receivedValue : Option JsVal) (expectedType : Option String)
      (expectedValues : Option (List JsVal)) (fullObject : Option JsVal) :
      TransformError

def TransformError.message : TransformError → String
  | .mk m _ _ _ _ _ _ => m

def TransformError.dtoName : TransformError → String
  | .mk _ d _ _ _ _ _ => d

def TransformError.fieldName : TransformError → String
  | .mk _ _ f _ _ _ _ => f

def TransformError.receivedValue : TransformError → Option JsVal
  | .mk _ _ _ r _ _ _ => r

def TransformError.expectedType : TransformError → Option String
  | .mk _ _ _ _ e _ _ => e

def TransformError.expectedValues : TransformError → Option (List JsVal)
  | .mk _ _ _ _ _ v _ => v

def TransformError.fullObject : TransformError → Option JsVal
  | .mk _ _ _ _ _ _ o => o

/-! ### The primitive coercer -/

/-- `validatePrimitiveType`: the per-kind primitive check; `number`
excludes NaN, `date` excludes Invalid Date, unrecognized expected types
(including the engine's `unknown` and an unset `null`) always fail. -/
def validatePrimitiveType (value : JsVal) (expectedType : Option String) : Bool :=
  if expectedType = some "number" then
    match value with | .num _ => true | _ => false
  else if expectedType = some "string" then
    match value with | .str _ => true | _ => false
  else if expectedType = some "boolean" then
    match value with | .bool _ => true | _ => false
  else if expectedType = some "bigint" then
    match value with | .bigint _ => true | _ => false
  else if expectedType = some "symbol" then
    match value with | .sym _ => true | _ => false
  else if expectedType = some "date" then
    match value with | .date (some _) => true | _ => false
  else false

/-- `coerceToPrimitiveType`: the per-kind best-effort conversion; the
switch has no `symbol` case, so symbols (and unrecognized kinds) return
the value unchanged. -/
def coerceToPrimitiveType (value : JsVal) (expectedType : Option String) :
    Except Unit JsVal :=
  if expectedType = some "number" then jsToNumber value
  else if expectedType = some "string" then (jsStringFn value).map JsVal.str
  else if expectedType = some "boolean" then .ok (.bool (jsToBoolean value))
  else if expectedType = some "bigint" then jsToBigInt value
  else if expectedType = some "date" then jsToDate value
  else .ok value

/-- The "wrong scalar type" error: `Field should be a <expectedType>`, with
the expected kind and the original received value (a null expected type
prints as the string `null`, as the source's template literal does). -/
def wrongTypeErr (value : JsVal) (expectedType : Option String)
    (fieldPath : String) : TransformError :=
  .mk ("Field should be a " ++ expectedType.getD "null") fieldPath ""
    (some value) expectedType none (some value)

/-- `transformPrimitive`: pass through when `noCheck`; otherwise check,
then on failure coerce once and re-check; a failing re-check or a throwing
coercion raises the wrong-scalar-type error carrying the original value. -/
def transformPrimitive (value : JsVal) (m : FieldMeta) (fieldPath : String) :
    Except TransformError JsVal :=
  if m.noCheck then .ok value
  else
    let expectedType := m.expectedType
    if validatePrimitiveType value expectedType then .ok value
    else
      match coerceToPrimitiveType value expectedType with
      | .ok coercedValue =>
        if validatePrimitiveType coercedValue expectedType then .ok coercedValue
        else .error (wrongTypeErr value expectedType fieldPath)
      | .error _ => .error (wrongTypeErr value expectedType fieldPath)

/-! ### The secondary nested-field validation pass -/

/-- `validateFieldType`: the shallow per-kind validity check used by the
defensive revision's secondary pass over a nested structure's fields.
Returns the validity and the expected-type description.  The source's
guard for a non-record metadata argument cannot fire in the model, where
metadata is always a `FieldMeta`. -/
def validateFieldType (value : JsVal) (m : FieldMeta) : Bool × Option String :=
  if m.noCheck then (true, none)
  else
    match m.typeCheck with
    | 1 =>
      let expectedType := m.expectedType.getD "primitive"
      (validatePrimitiveType value (some expectedType), some expectedType)
    | 2 => (jsTypeof value == "object" && !isNullV value, some "object")
    | 32 => (jsTypeof value == "object" && !isNullV value, some "object")
    | 4 => (isJsArray value, some "array")
    | 16 => (isJsArray value, some "array")
    | 8 => (jsIncludes m.enumValues value, some "enum")
    | _ => (false, some "unknown")

/-- `isFieldRequired`: the required flag (the source's record-shape guard
cannot fire in the model). -/
def isFieldRequired (m : FieldMeta) : Bool := m.required

/-! ### Error constructors used by the engine -/

/-- `Required field '<key>' is missing` (field absent from the input). -/
def missingErr (key : String) (dtoName : String) (o : JsVal) : TransformError :=
  .mk ("Required field \x27" ++ key ++ "\x27 is missing") dtoName key
    none none none (some o)

/-- `Required field '<key>' cannot be undefined` (field present holding the
absent-sentinel). -/
def undefinedErr (key : String) (dtoName : String) (o : JsVal) : TransformError :=
  .mk ("Required field \x27" ++ key ++ "\x27 cannot be undefined") dtoName key
    none none none (some o)

/-- `Field '<key>' cannot be null`. -/
def nullErr (key : String) (dtoName : String) (o : JsVal) : TransformError :=
  .mk ("Field \x27" ++ key ++ "\x27 cannot be null") dtoName key
    (some .null) none none (some o)

/-- `Required field is missing` (the `transformField` preamble for an
undefined value; the source attaches `fieldMetadata.type.name`, modelled
here by the stored reference name). -/
def fieldMissingErr (m : FieldMeta) (fieldPath : String) : TransformError :=
  .mk "Required field is missing" fieldPath "" none (some m.refName) none none

/-- `Field should be an object`. -/
def notObjectErr (value : JsVal) (fieldPath : String) : TransformError :=
  .mk "Field should be an object" fieldPath "" (some value) (some "object")
    none (some value)

/-- `Field should be an array`. -/
def notArrayErr (value : JsVal) (fieldPath : String) : TransformError :=
  .mk "Field should be an array" fieldPath "" (some value) (some "array")
    none (some value)

/-- `Invalid value in array` (an undefined element at `fieldPath[index]`;
the full array is attached). -/
def invalidArrayErr (fieldPath : String) (index : Nat) (orig : JsVal) :
    TransformError :=
  .mk "Invalid value in array" (fieldPath ++ "[" ++ toString index ++ "]") ""
    none (some "non-undefined") none (some orig)

/-- `Invalid type for nested field '<key>'` raised by the secondary pass. -/
def invalidNestedErr (nestedKey : String) (received : JsVal)
    (expectedType : Option String) (value : JsVal) (fieldPath : String) :
    TransformError :=
  .mk ("Invalid type for nested field \x27" ++ nestedKey ++ "\x27")
    (fieldPath ++ "." ++ nestedKey) nestedKey (some received) expectedType
    none (some value)

/-- `Required nested field '<key>' is missing` raised by the secondary
pass. -/
def requiredNestedErr (nestedKey : String) (value : JsVal)
    (fieldPath : String) : TransformError :=
  .mk ("Required nested field \x27" ++ nestedKey ++ "\x27 is missing")
    fieldPath nestedKey none none none (some value)

/-- `Invalid enum value`, with the allowed values attached. -/
def enumErr (value : JsVal) (allowed : List JsVal) (fieldPath : String) :
    TransformError :=
  .mk "Invalid enum value" fieldPath "" (some value) (some "enum")
    (some allowed) (some value)

/-- `Unexpected type for field` (the defensive default branch). -/
def unexpectedErr (value : JsVal) (fieldPath : String) : TransformError :=
  .mk "Unexpected type for field" fieldPath "" (some value) none none
    (some value)

/-- The secondary per-key validation pass the defensive revision runs over
a nested structure's inline fields after the primary recursive transform:
for each declared nested field, a present value must pass
`validateFieldType`, and an absent one must not be required. -/
def nestedSecondPass (value : JsVal) (entries : Filter) (fieldPath : String) :
    Except TransformError Unit :=
  match entries with
  | [] => .ok ()
  | (nestedKey, nestedValue) :: rest =>
    if hasOwn value nestedKey then
      let vres := validateFieldType (getProp value nestedKey) nestedValue
      if !vres.1 then
        .error (invalidNestedErr nestedKey (getProp value nestedKey) vres.2
          value fieldPath)
      else nestedSecondPass value rest fieldPath
    else if isFieldRequired nestedValue then
      .error (requiredNestedErr nestedKey value fieldPath)
    else nestedSecondPass value rest fieldPath

/-! ### Size lemmas for termination -/

theorem sizeOf_lookupField_lt {fields : List (String × JsVal)} {key : String}
    {v : JsVal} (h : lookupField fields key = some v) : sizeOf v < sizeOf fields := by
  induction fields with
  | nil => simp [lookupField] at h
  | cons p rest ih =>
    obtain ⟨k, w⟩ := p
    simp only [lookupField] at h
    split at h
    · cases h
      simp
      omega
    · have := ih h
      simp
      omega

theorem sizeOf_getProp_lt {o : JsVal} {key : String} (h : hasOwn o key = true) :
    sizeOf (getProp o key) < sizeOf o := by
  cases o <;> simp [hasOwn] at h
  case obj fields =>
    rw [Option.isSome_iff_exists] at h
    obtain ⟨v, hv⟩ := h
    have hlt := sizeOf_lookupField_lt hv
    simp only [getProp, hv, Option.getD_some]
    simp
    omega

/-! ### The transform engine (defensive revision) -/

mutual

/-- `transform(obj, filter, dtoName)`: a null-ish root maps to `null`; an
array root maps the transform over its elements with the same filter;
otherwise the filter's fields are walked in declaration order.  (The ORM
materialization hook branch is vacuous in the model, which has no function
values.) -/
def transform (env : Env) (o : JsVal) (filter : Filter) (dtoName : String) :
    Except TransformError JsVal :=
  if isUndefV o || isNullV o then .ok .null
  else
    match o with
    | .arr elems => (transformElems env elems filter dtoName).map JsVal.arr
    | other => (transformEntries env other filter dtoName).map JsVal.obj
termination_by (sizeOf o, 1, 0)
decreasing_by
  all_goals simp_wf
  all_goals first
  | (apply Prod.Lex.left
     first
     | omega
     | (simp
        omega)
     | (apply sizeOf_getProp_lt
        simp_all))
  | (apply Prod.Lex.right
     first
     | (apply Prod.Lex.left
        omega)
     | (apply Prod.Lex.right
        first
        | omega
        | (simp
           omega)))

/-- The element map of `transform` over an array root. -/
def transformElems (env : Env) (elems : List JsVal) (filter : Filter)
    (dtoName : String) : Except TransformError (List JsVal) :=
  match elems with
  | [] => .ok []
  | e :: rest => do
    let te ← transform env e filter dtoName
    let trest ← transformElems env rest filter dtoName
    .ok (te :: trest)
termination_by (sizeOf elems, 0, 0)
decreasing_by
  all_goals simp_wf
  all_goals first
  | (apply Prod.Lex.left
     first
     | omega
     | (simp
        omega)
     | (apply sizeOf_getProp_lt
        simp_all))
  | (apply Prod.Lex.right
     first
     | (apply Prod.Lex.left
        omega)
     | (apply Prod.Lex.right
        first
        | omega
        | (simp
           omega)))

/-- The field loop of `transform`: for each filter entry in order, an
absent key raises `missing` unless neither (`required` or
`isNestedObject`) under no-check; a present `undefined` raises unless not
required or no-check (and is otherwise omitted); a present `null` is kept
when no-check or nullable and raises otherwise; any other value goes
through `transformField`. -/
def transformEntries (env : Env) (o : JsVal) (entries : Filter)
    (dtoName : String) : Except TransformError (List (String × JsVal)) :=
  match entries with
  | [] => .ok []
  | (key, value) :: rest =>
    if !(hasOwn o key) then
      if !value.noCheck && (value.required || value.isNestedObject) then
        .error (missingErr key dtoName o)
      else transformEntries env o rest dtoName
    else if isUndefV (getProp o key) then
      if !value.noCheck && value.required then
        .error (undefinedErr key dtoName o)
      else transformEntries env o rest dtoName
    else if isNullV (getProp o key) then
      if value.noCheck || value.nullable then
        (transformEntries env o rest dtoName).map
          (fun tail => (key, JsVal.null) :: tail)
      else .error (nullErr key dtoName o)
    else do
      let tv ← transformField env (getProp o key) value (dtoName ++ "." ++ key)
      let tail ← transformEntries env o rest dtoName
      .ok ((key, tv) :: tail)
termination_by (sizeOf o, 0, sizeOf entries)
decreasing_by
  all_goals simp_wf
  all_goals first
  | (apply Prod.Lex.left
     first
     | omega
     | (simp
        omega)
     | (apply sizeOf_getProp_lt
        simp_all))
  | (apply Prod.Lex.right
     first
     | (apply Prod.Lex.left
        omega)
     | (apply Prod.Lex.right
        first
        | omega
        | (simp
           omega)))

/-- `transformField` (defensive revision): the undefined/nullable preamble,
then the nested-structure two-pass branch, then the dispatch on the
`typeCheck` bitmask (primitive, class, class/primitive array, enum, with a
defensive default error).  The source's switch — where cases 2/32 and 4/16
fall through to shared bodies — is rendered as an equality chain on the
scrutinee. -/
def transformField (env : Env) (value : JsVal) (m : FieldMeta)
    (fieldPath : String) : Except TransformError JsVal :=
  if isUndefV value then
    if m.required then .error (fieldMissingErr m fieldPath) else .ok .undef
  else if isNullV value && m.nullable then .ok .null
  else if m.isNestedObject then
    if !(jsTypeof value == "object") || isNullV value then
      .error (notObjectErr value fieldPath)
    else do
      let transformedNested ← transform env value m.nestedFields fieldPath
      let _ ← nestedSecondPass value m.nestedFields fieldPath
      .ok transformedNested
  else if m.typeCheck = 1 then transformPrimitive value m fieldPath
  else if m.typeCheck = 2 ∨ m.typeCheck = 32 then
    if !(jsTypeof value == "object") || isNullV value then
      .error (notObjectErr value fieldPath)
    else
      transform env value
        (if m.isNestedObject then m.nestedFields else env m.refName) fieldPath
  else if m.typeCheck = 4 ∨ m.typeCheck = 16 then
    match value with
    | .arr items =>
      (transformFieldItems env items m fieldPath 0 (JsVal.arr items)).map
        JsVal.arr
    | _ => .error (notArrayErr value fieldPath)
  else if m.typeCheck = 8 then
    if !(jsIncludes m.enumValues value) then
      .error (enumErr value m.enumValues fieldPath)
    else .ok value
  else .error (unexpectedErr value fieldPath)
termination_by (sizeOf value, 2, 0)
decreasing_by
  all_goals simp_wf
  all_goals first
  | (apply Prod.Lex.left
     first
     | omega
     | (simp
        omega)
     | (apply sizeOf_getProp_lt
        simp_all))
  | (apply Prod.Lex.right
     first
     | (apply Prod.Lex.left
        omega)
     | (apply Prod.Lex.right
        first
        | omega
        | (simp
           omega)))

/-- The per-element rule of the class/primitive array branches of
`transformField`: an undefined element raises `Invalid value in array`; a
null element of a nullable field maps to null; otherwise a class array
recursively transforms against the referenced schema and a primitive
array goes through the primitive coercer, both at path
`fieldPath[index]`. -/
def elemRule (env : Env) (item : JsVal) (m : FieldMeta) (fieldPath : String)
    (index : Nat) (orig : JsVal) : Except TransformError JsVal :=
  if isUndefV item then .error (invalidArrayErr fieldPath index orig)
  else if isNullV item && m.nullable then .ok .null
  else if m.typeCheck = 4 then
    transform env item (env m.refName) (fieldPath ++ "[" ++ toString index ++ "]")
  else transformPrimitive item m (fieldPath ++ "[" ++ toString index ++ "]")
termination_by (sizeOf item, 2, 0)
decreasing_by
  all_goals simp_wf
  all_goals first
  | (apply Prod.Lex.left
     first
     | omega
     | (simp
        omega)
     | (apply sizeOf_getProp_lt
        simp_all))
  | (apply Prod.Lex.right
     first
     | (apply Prod.Lex.left
        omega)
     | (apply Prod.Lex.right
        first
        | omega
        | (simp
           omega)))

/-- The indexed element map of the array branches of `transformField`. -/
def transformFieldItems (env : Env) (items : List JsVal) (m : FieldMeta)
    (fieldPath : String) (index : Nat) (orig : JsVal) :
    Except TransformError (List JsVal) :=
  match items with
  | [] => .ok []
  | item :: rest => do
    let titem ← elemRule env item m fieldPath index orig
    let trest ← transformFieldItems env rest m fieldPath (index + 1) orig
    .ok (titem :: trest)
termination_by (sizeOf items, 0, 0)
decreasing_by
  all_goals simp_wf
  all_goals first
  | (apply Prod.Lex.left
     first
     | omega
     | (simp
        omega)
     | (apply sizeOf_getProp_lt
        simp_all))
  | (apply Prod.Lex.right
     first
     | (apply Prod.Lex.left
        omega)
     | (apply Prod.Lex.right
        first
        | omega
        | (simp
           omega)))

end

/-- The single-pass handling of a nested-structure field: the object-shape
check followed by the primary recursive transform over the inline nested
fields, with the defensive revision's secondary per-key validation pass
removed.  This is the comparison point for the refinement question about
the double pass. -/
def transformFieldNestedPrimary (env : Env) (value : JsVal) (m : FieldMeta)
    (fieldPath : String) : Except TransformError JsVal :=
  if !(jsTypeof value == "object") || isNullV value then
    .error (notObjectErr value fieldPath)
  else transform env value m.nestedFields fieldPath

/-! ### Raw metadata and `prepareMetadata` / `prepareField` -/

mutual

/-- The resolved `type` of one raw field description: one of the primitive
constructors (`Number`, `String`, ...), a registered DTO class, an array
marker wrapping an element type, an inline nested field map, or anything
else (an unregistered function, `undefined`, ...). -/
inductive RawType : Type where
  | ctorNumber : RawType
  | ctorString : RawType
  | ctorBoolean : RawType
  | ctorBigInt : RawType
  | ctorSymbol : RawType
  | ctorDate : RawType
  | classRef (name : String) : RawType
  | arrOf (elem : RawType) : RawType
  | inline (fields : List (String × RawField)) : RawType
  | other : RawType

/-- One raw field description as handed to `prepareMetadata`: the resolved
type (the source resolves `value.type` thunks first), the optional enum
value set, the required/nullable flags, and the per-property reflection
flags (`@NoCheck` / `@NoOut`); the latter two are only consulted for
fields of a real DTO class — inline nested maps carry no property
metadata, which the `useProps` argument of `prepareMetadata` models. -/
inductive RawField : Type where
  | mk (type : RawType) (enumVals : Option (List JsVal)) (required : Bool)
      (nullable : Bool) (noCheckProp : Bool) (noOut : Bool) : RawField

end

def RawField.type : RawField → RawType
  | .mk t _ _ _ _ _ => t

def RawField.enumVals : RawField → Option (List JsVal)
  | .mk _ e _ _ _ _ => e

def RawField.required : RawField → Bool
  | .mk _ _ r _ _ _ => r

def RawField.nullable : RawField → Bool
  | .mk _ _ _ n _ _ => n

def RawField.noCheckProp : RawField → Bool
  | .mk _ _ _ _ n _ => n

def RawField.noOut : RawField → Bool
  | .mk _ _ _ _ _ n => n

/-- `isClass`: whether the resolved type is a registered DTO class. -/
def isClassT : RawType → Bool
  | .classRef _ => true
  | _ => false

/-- `getExpectedTypeName`: the primitive kind of a resolved type,
`unknown` for anything unrecognized. -/
def getExpectedTypeName : RawType → String
  | .ctorNumber => "number"
  | .ctorString => "string"
  | .ctorBoolean => "boolean"
  | .ctorBigInt => "bigint"
  | .ctorSymbol => "symbol"
  | .ctorDate => "date"
  | _ => "unknown"

/-- The name under which the referenced DTO class is looked up in the
schema cache (`type.name` for a class, `type[0].name` for a class array;
empty otherwise). -/
def refNameOf : RawType → String
  | .classRef n => n
  | .arrOf (.classRef n) => n
  | _ => ""

/-- The element type of an array marker (the type itself otherwise;
callers only use this under an `arrOf` match). -/
def arrElemType : RawType → RawType
  | .arrOf e => e
  | t => t

mutual

/-- `prepareField`: classify one raw field description into a `FieldMeta`.
An inline nested map becomes a nested-structure field whose children are
prepared with the same inherited flags; otherwise the class / array /
enum / primitive booleans are derived from the resolved type, the
expected primitive name is recorded for primitives and primitive arrays,
and the class-level skip-primitive-checks flag forces `noCheck` for
those two kinds. -/
def prepareField (rf : RawField) (noCheck : Bool) (noCheckPrimitives : Bool) :
    FieldMeta :=
  match rf with
  | .mk t ev req nul _ _ =>
    let isEnum := ev.isSome
    match t with
    | .inline fs =>
      .mk req nul noCheck isEnum false false false false true none
        (ev.getD []) "" (prepareMetadata fs false noCheck noCheckPrimitives)
    | _ =>
      let isClass := isClassT t
      let isArrayOfClass :=
        match t with
        | .arrOf e => isClassT e
        | _ => false
      let isArrayOfPrimitive :=
        match t with
        | .arrOf e => !isClassT e
        | _ => false
      let isPrimitive := !isClass && !isArrayOfClass && !isArrayOfPrimitive && !isEnum
      let expectedType :=
        if isPrimitive || isArrayOfPrimitive then
          some (getExpectedTypeName
            (if isArrayOfPrimitive then arrElemType t else t))
        else none
      let noCheckF :=
        if (isPrimitive || isArrayOfPrimitive) && noCheckPrimitives then true
        else noCheck
      .mk req nul noCheckF isEnum isPrimitive isClass isArrayOfClass
        isArrayOfPrimitive false expectedType (ev.getD []) (refNameOf t) []

/-- `prepareMetadata`: walk the raw field map in declaration order,
dropping every `@NoOut` field and preparing the rest with the merged
no-check flag (`classNoCheck || propertyNoCheck`).  `useProps` is true
for a real DTO class and false for an inline nested map, whose keys have
no property reflection metadata (the source passes `Object` as the
class there, so both per-property flags read as absent). -/
def prepareMetadata (md : List (String × RawField)) (useProps : Bool)
    (classNoCheck : Bool) (noCheckPrimitives : Bool) : Filter :=
  match md with
  | [] => []
  | (key, rf) :: rest =>
    if useProps && rf.noOut then
      prepareMetadata rest useProps classNoCheck noCheckPrimitives
    else
      (key, prepareField rf (classNoCheck || (useProps && rf.noCheckProp))
        noCheckPrimitives) ::
        prepareMetadata rest useProps classNoCheck noCheckPrimitives

end

/-! ### Small rewriting helpers -/

@[simp] theorem except_pure_bind {A E B : Type} (a : A) (f : A → Except E B) :
    (Except.ok a : Except E A) >>= f = f a := rfl

@[simp] theorem except_error_bind {A E B : Type} (e : E) (f : A → Except E B) :
    (Except.error e : Except E A) >>= f = .error e := rfl

@[simp] theorem except_map_ok {A E B : Type} (f : A → B) (a : A) :
    Except.map f (Except.ok a : Except E A) = .ok (f a) := rfl

@[simp] theorem except_map_error {A E B : Type} (f : A → B) (e : E) :
    Except.map f (Except.error e : Except E A) = .error e := rfl

theorem except_map_eq_ok {A E B : Type} {f : A → B} {x : Except E A} {b : B}
    (h : Except.map f x = .ok b) : ∃ a, x = .ok a ∧ b = f a := by
  cases x with
  | ok a => exact ⟨a, rfl, by cases h; rfl⟩
  | error e => simp [Except.map] at h

@[simp] theorem isUndefV_eq_true {v : JsVal} : isUndefV v = true ↔ v = .undef := by
  cases v <;> simp [isUndefV]

@[simp] theorem isNullV_eq_true {v : JsVal} : isNullV v = true ↔ v = .null := by
  cases v <;> simp [isNullV]

@[simp] theorem isUndefV_eq_false {v : JsVal} : isUndefV v = false ↔ v ≠ .undef := by
  cases v <;> simp [isUndefV]

@[simp] theorem isNullV_eq_false {v : JsVal} : isNullV v = false ↔ v ≠ .null := by
  cases v <;> simp [isNullV]

/-- A `typeCheck` bitmask of 1 forces the primitive flag on and every other
kind flag off; in particular the field is not a nested structure. -/
theorem typeCheck_one_flags {m : FieldMeta} (h : m.typeCheck = 1) :
    m.isPrimitive = true ∧ m.isClass = false ∧ m.isArrayOfClass = false ∧
    m.isEnum = false ∧ m.isArrayOfPrimitive = false ∧
    m.isNestedObject = false := by
  cases m with
  | mk r n nc e p c ac ap nest et ev rn nf =>
    simp only [FieldMeta.typeCheck, FieldMeta.isPrimitive, FieldMeta.isClass,
      FieldMeta.isArrayOfClass, FieldMeta.isEnum, FieldMeta.isArrayOfPrimitive,
      FieldMeta.isNestedObject] at h ⊢
    cases p <;> cases c <;> cases ac <;> cases e <;> cases ap <;> cases nest <;>
      simp_all

/-- The empty schema cache used by concrete instances. -/
def emptyEnv : Env := fun _ => []

/-! ### Claim theorems -/

/-- Claim C10: for every resolved schema, calling `transform` with the root
value being the absent-sentinel (`undefined`) returns `null` — the same
result as a `null` root — and never raises, even when the schema declares
required fields (`obj == null` is true for both). -/
theorem transform_undefined_root_gives_null (env : Env) (filter : Filter)
    (dtoName : String) :
    transform env .undef filter dtoName = .ok .null ∧
    transform env .null filter dtoName = .ok .null := by
  constructor <;> simp [transform, isUndefV, isNullV]

/-- Claim C2: for a non-skip-validation scalar rule, a passing check
returns the value unchanged; a failing check attempts exactly one coercion
and re-runs the check on the result, returning the coerced value when the
re-check passes and otherwise (re-check fails, or the coercion itself
throws) raising the wrong-scalar-type error that carries the expected kind
and the original received value; in particular a text field receiving the
number 42 yields the string "42", and a number field receiving the
non-numeric string "abc" raises. -/
theorem transformPrimitive_coercion_policy (m : FieldMeta) (p : String)
    (hnc : m.noCheck = false) :
    (∀ v, validatePrimitiveType v m.expectedType = true →
      transformPrimitive v m p = .ok v) ∧
    (∀ v, validatePrimitiveType v m.expectedType = false →
      transformPrimitive v m p =
        match coerceToPrimitiveType v m.expectedType with
        | .ok c =>
          if validatePrimitiveType c m.expectedType then .ok c
          else .error (wrongTypeErr v m.expectedType p)
        | .error _ => .error (wrongTypeErr v m.expectedType p)) ∧
    (∀ v, (wrongTypeErr v m.expectedType p).receivedValue = some v ∧
      (wrongTypeErr v m.expectedType p).expectedType = m.expectedType) ∧
    (m.expectedType = some "string" →
      transformPrimitive (.num 42) m p = .ok (.str "42")) ∧
    (m.expectedType = some "number" →
      transformPrimitive (.str "abc") m p =
        .error (wrongTypeErr (.str "abc") m.expectedType p)) := by
  refine ⟨?_, ?_, ?_, ?_, ?_⟩
  · intro v hv
    simp [transformPrimitive, hnc, hv]
  · intro v hv
    simp [transformPrimitive, hnc, hv]
  · intro v
    exact ⟨rfl, rfl⟩
  · intro het
    have h1 : validatePrimitiveType (.num 42) m.expectedType = false := by
      simp [het, validatePrimitiveType]
    have h2 : coerceToPrimitiveType (.num 42) m.expectedType = .ok (.str "42") := by
      simp [het, coerceToPrimitiveType, jsStringFn, jsToStringX, ratToDisplay]
      decide
    have h3 : validatePrimitiveType (.str "42") m.expectedType = true := by
      simp [het, validatePrimitiveType]
    simp [transformPrimitive, hnc, h1, h2, h3]
  · intro het
    have h2 : coerceToPrimitiveType (.str "abc") (some "number") = .ok .nan := by
      simp [coerceToPrimitiveType, jsToNumber]
      rfl
    simp [transformPrimitive, hnc, het, validatePrimitiveType, h2]

/-- Witness for C2 at a concrete scalar rule. -/
theorem transformPrimitive_coercion_policy_witness :
    (FieldMeta.mk false false false false true false false false false
        (some "string") [] "" []).noCheck = false ∧
    transformPrimitive (.num 42)
      (FieldMeta.mk false false false false true false false false false
        (some "string") [] "" []) "D.name" = .ok (.str "42") :=
  ⟨rfl,
    (transformPrimitive_coercion_policy
      (FieldMeta.mk false false false false true false false false false
        (some "string") [] "" []) "D.name" rfl).2.2.2.1 rfl⟩

/-- Claim C9: a non-skip-validation boolean scalar rule never raises: a
non-boolean is coerced with `Boolean(value)`, which always yields a
boolean that passes the re-check, so the wrong-scalar-type branch is
unreachable for the boolean kind. -/
theorem transformPrimitive_boolean_never_fails (m : FieldMeta) (p : String)
    (v : JsVal) (het : m.expectedType = some "boolean") (hnc : m.noCheck = false) :
    transformPrimitive v m p =
      .ok (if validatePrimitiveType v (some "boolean") = true then v
        else .bool (jsToBoolean v)) := by
  by_cases hv : validatePrimitiveType v (some "boolean") = true
  · simp [transformPrimitive, hnc, het, hv]
  · simp only [Bool.not_eq_true] at hv
    simp [transformPrimitive, hnc, het, hv, coerceToPrimitiveType,
      validatePrimitiveType]
    split <;> rfl

/-- Witness for C9 at the number 0 (coerced to `false`). -/
theorem transformPrimitive_boolean_never_fails_witness :
    (FieldMeta.mk false false false false true false false false false
        (some "boolean") [] "" []).expectedType = some "boolean" ∧
    transformPrimitive (.num 0)
      (FieldMeta.mk false false false false true false false false false
        (some "boolean") [] "" []) "D.flag" = .ok (.bool false) := by
  refine ⟨rfl, ?_⟩
  have h := transformPrimitive_boolean_never_fails
    (FieldMeta.mk false false false false true false false false false
      (some "boolean") [] "" []) "D.flag" (.num 0) rfl rfl
  simpa [validatePrimitiveType, jsToBoolean] using h

/-- Claim C5: a non-skip-validation field whose key is present but holds
the absent-sentinel raises the `cannot be undefined` error naming the
field when required; when not required the field is omitted from the
output and no error is raised. -/
theorem transform_present_undefined_field (env : Env)
    (fields : List (String × JsVal)) (k : String) (m : FieldMeta) (d : String)
    (hnc : m.noCheck = false) (hk : lookupField fields k = some .undef) :
    (m.required = true →
      transform env (.obj fields) [(k, m)] d
        = .error (undefinedErr k d (.obj fields))) ∧
    (m.required = false →
      transform env (.obj fields) [(k, m)] d = .ok (.obj [])) ∧
    (undefinedErr k d (.obj fields)).message
      = "Required field \x27" ++ k ++ "\x27 cannot be undefined" := by
  refine ⟨?_, ?_, rfl⟩ <;> intro hreq <;>
    simp [transform, transformEntries, hasOwn, getProp, hk, hnc, hreq,
      isUndefV, isNullV]

/-- Witness for C5: a concrete required field present as `undefined`. -/
theorem transform_present_undefined_field_witness :
    (FieldMeta.mk true false false false true false false false false
        (some "number") [] "" []).noCheck = false ∧
    transform emptyEnv (.obj [("id", .undef)])
      [("id", FieldMeta.mk true false false false true false false false false
        (some "number") [] "" [])] "D"
      = .error (undefinedErr "id" "D" (.obj [("id", .undef)])) :=
  ⟨rfl,
    (transform_present_undefined_field emptyEnv [("id", .undef)] "id"
      (FieldMeta.mk true false false false true false false false false
        (some "number") [] "" []) "D" rfl (by simp [lookupField])).1 rfl⟩

/-- The nested-structure field metadata with an empty inline map, not
required and not skip-validation, used to refute claim C3. -/
def nestedEmptyMeta : FieldMeta :=
  .mk false false false false false false false false true none [] "" []

/-- Counterexample to claim C3: a NestedStructure field that is not
required and not skip-validation still raises `Required field 's' is
missing` when its key is absent (the code tests `required ||
isNestedObject`), where the claim predicts no error and omission. -/
theorem transform_missing_nested_not_required_raises :
    nestedEmptyMeta.required = false ∧ nestedEmptyMeta.noCheck = false ∧
    transform emptyEnv (.obj []) [("s", nestedEmptyMeta)] "D"
      = .error (missingErr "s" "D" (.obj [])) ∧
    (missingErr "s" "D" (.obj [])).message
      = "Required field \x27s\x27 is missing" := by
  refine ⟨rfl, rfl, ?_, rfl⟩
  simp [transform, transformEntries, hasOwn, lookupField, nestedEmptyMeta,
    isUndefV, isNullV]

/-- Claim C3 as amended: with the field's key absent from the input, the
missing-field error is raised if and only if the field is not
skip-validation and (its required flag is true or its kind is
NestedStructure); in every other case the field is omitted and no error is
raised.  (Stated on a one-field schema, which isolates the field's own
processing.) -/
theorem transform_missing_field_iff (env : Env)
    (fields : List (String × JsVal)) (k : String) (m : FieldMeta) (d : String)
    (habs : hasOwn (.obj fields) k = false) :
    (m.noCheck = false ∧ (m.required = true ∨ m.isNestedObject = true) →
      transform env (.obj fields) [(k, m)] d
        = .error (missingErr k d (.obj fields))) ∧
    (¬(m.noCheck = false ∧ (m.required = true ∨ m.isNestedObject = true)) →
      transform env (.obj fields) [(k, m)] d = .ok (.obj [])) := by
  constructor
  · rintro ⟨h1, h2⟩
    rcases h2 with h2 | h2 <;>
      simp [transform, transformEntries, habs, h1, h2, isUndefV, isNullV]
  · intro h
    cases hnc : m.noCheck with
    | true => simp [transform, transformEntries, habs, hnc, isUndefV, isNullV]
    | false =>
      have hr : m.required = false := by
        cases hq : m.required
        · rfl
        · exact absurd ⟨hnc, Or.inl hq⟩ h
      have hn : m.isNestedObject = false := by
        cases hq : m.isNestedObject
        · rfl
        · exact absurd ⟨hnc, Or.inr hq⟩ h
      simp [transform, transformEntries, habs, hnc, hr, hn, isUndefV, isNullV]

/-- Witness for the amended C3: an absent required scalar raises, an
absent optional scalar is omitted. -/
theorem transform_missing_field_iff_witness :
    hasOwn (.obj []) "id" = false ∧
    transform emptyEnv (.obj [])
      [("id", FieldMeta.mk true false false false true false false false false
        (some "number") [] "" [])] "D"
      = .error (missingErr "id" "D" (.obj [])) ∧
    transform emptyEnv (.obj [])
      [("id", FieldMeta.mk false false false false true false false false false
        (some "number") [] "" [])] "D" = .ok (.obj []) := by
  refine ⟨rfl, ?_, ?_⟩
  · exact (transform_missing_field_iff emptyEnv [] "id" _ "D" rfl).1 ⟨rfl, Or.inl rfl⟩
  · exact (transform_missing_field_iff emptyEnv [] "id" _ "D" rfl).2 (by simp)

/-- The skip-validation enum field metadata used to refute claim C4. -/
def enumNoCheckMeta : FieldMeta :=
  .mk false false true true false false false false false none [.str "A"] "" []

/-- Counterexample to claim C4: a skip-validation (`noCheck`) enum field
receiving a non-member value still raises `Invalid enum value` — the
defensive revision's enum branch has no `noCheck` guard — where the claim
predicts the value passes through unchanged with no error. -/
theorem transform_noCheck_enum_still_raises :
    enumNoCheckMeta.noCheck = true ∧
    transform emptyEnv (.obj [("r", .str "B")]) [("r", enumNoCheckMeta)] "D"
      = .error (enumErr (.str "B") [.str "A"] "D.r") := by
  refine ⟨rfl, ?_⟩
  simp [transform, transformEntries, transformField, hasOwn, getProp,
    lookupField, enumNoCheckMeta, FieldMeta.typeCheck, jsIncludes, jsEq,
    isUndefV, isNullV]

/-- Claim C4 as amended: the unconditional pass-through holds for
Scalar-kind (`typeCheck = 1`) skip-validation fields: a present value
other than the absent-sentinel (including `null` and arbitrarily shaped
values) is included in the output completely unchanged with no error,
and a present absent-sentinel is omitted with no error.  (For enum,
array, record and nested-structure kinds the defensive revision still
shape-checks `noCheck` fields, as the counterexample shows.) -/
theorem transform_noCheck_scalar_passthrough (env : Env)
    (fields : List (String × JsVal)) (k : String) (m : FieldMeta) (d : String)
    (v : JsVal) (hnc : m.noCheck = true) (htc : m.typeCheck = 1)
    (hk : lookupField fields k = some v) :
    (v ≠ .undef →
      transform env (.obj fields) [(k, m)] d = .ok (.obj [(k, v)])) ∧
    (v = .undef →
      transform env (.obj fields) [(k, m)] d = .ok (.obj [])) := by
  have hflags := typeCheck_one_flags htc
  constructor
  · intro hv
    by_cases hvn : v = .null
    · subst hvn
      simp [transform, transformEntries, hasOwn, getProp, hk, hnc,
        isUndefV, isNullV]
    · have ht : transformField env v m (d ++ "." ++ k) = .ok v := by
        unfold transformField
        simp [hv, hvn, hflags.2.2.2.2.2, htc, transformPrimitive, hnc]
      simp [transform, transformEntries, hasOwn, getProp, hk, hv, hvn, ht,
        isUndefV, isNullV]
  · intro hv
    subst hv
    simp [transform, transformEntries, hasOwn, getProp, hk, hnc,
      isUndefV, isNullV]

/-- Witness for the amended C4: a no-check scalar field passes an
arbitrary object value through unchanged. -/
theorem transform_noCheck_scalar_passthrough_witness :
    (FieldMeta.mk false false true false true false false false false
        (some "number") [] "" []).noCheck = true ∧
    transform emptyEnv (.obj [("data", .obj [("foo", .str "bar")])])
      [("data", FieldMeta.mk false false true false true false false false false
        (some "number") [] "" [])] "D"
      = .ok (.obj [("data", .obj [("foo", .str "bar")])]) :=
  ⟨rfl,
    (transform_noCheck_scalar_passthrough emptyEnv
      [("data", .obj [("foo", .str "bar")])] "data"
      (FieldMeta.mk false false true false true false false false false
        (some "number") [] "" []) "D" (.obj [("foo", .str "bar")]) rfl rfl
      (by simp [lookupField])).1 (by simp)⟩

/-! ### Array element mapping (claim C6) -/

theorem transformFieldItems_length {env : Env} {items : List JsVal}
    {m : FieldMeta} {p : String} {i : Nat} {orig : JsVal} {outs : List JsVal}
    (h : transformFieldItems env items m p i orig = .ok outs) :
    outs.length = items.length := by
  induction items generalizing i outs with
  | nil =>
    simp [transformFieldItems] at h
    simp [← h]
  | cons item rest ih =>
    rw [transformFieldItems.eq_def] at h
    cases he : elemRule env item m p i orig with
    | error e => simp [he] at h
    | ok t =>
      cases hr : transformFieldItems env rest m p (i + 1) orig with
      | error e => simp [he, hr] at h
      | ok ts =>
        simp [he, hr] at h
        subst h
        simp [ih hr]

theorem transformFieldItems_get {env : Env} {items : List JsVal}
    {m : FieldMeta} {p : String} {i : Nat} {orig : JsVal} {outs : List JsVal}
    (h : transformFieldItems env items m p i orig = .ok outs) :
    ∀ j (hj : j < items.length) (hj2 : j < outs.length),
      elemRule env (items.get ⟨j, hj⟩) m p (i + j) orig
        = .ok (outs.get ⟨j, hj2⟩) := by
  induction items generalizing i outs with
  | nil => intro j hj hj2; simp at hj
  | cons item rest ih =>
    rw [transformFieldItems.eq_def] at h
    cases he : elemRule env item m p i orig with
    | error e => simp [he] at h
    | ok t =>
      cases hr : transformFieldItems env rest m p (i + 1) orig with
      | error e => simp [he, hr] at h
      | ok ts =>
        simp [he, hr] at h
        subst h
        intro j hj hj2
        match j with
        | 0 => simpa using he
        | Nat.succ j' =>
          have hj' : j' < rest.length := by simpa using hj
          have hj2' : j' < ts.length := by simpa using hj2
          have := ih hr j' hj' hj2'
          simpa [Nat.add_assoc, Nat.add_comm 1 j'] using this

theorem transformFieldItems_undef {env : Env} {items : List JsVal}
    {m : FieldMeta} {p : String} {i : Nat} {orig : JsVal}
    (hmem : JsVal.undef ∈ items) (outs : List JsVal) :
    transformFieldItems env items m p i orig ≠ .ok outs := by
  induction items generalizing i outs with
  | nil => simp at hmem
  | cons item rest ih =>
    rw [transformFieldItems.eq_def]
    rcases List.mem_cons.mp hmem with hhead | htail
    · subst hhead
      simp [elemRule, isUndefV]
    · cases he : elemRule env item m p i orig with
      | error e => simp [he]
      | ok t =>
        cases hr : transformFieldItems env rest m p (i + 1) orig with
        | error e => simp [he, hr]
        | ok ts => exact absurd hr (ih htail ts)

/-- The non-nullable RecordArray field metadata used to refute the
null-element part of claim C6. -/
def recArrMetaCex : FieldMeta :=
  .mk false false false false false false true false false none [] "Item" []

/-- Counterexample to claim C6: a `null` element of a non-nullable
RecordArray field is accepted and yields output `null` (the element is
handed to the recursive `transform`, whose null-root rule returns `null`),
where the claim says a null element is accepted only if the field is
nullable. -/
theorem transform_recordArray_null_element_accepted :
    recArrMetaCex.nullable = false ∧
    transform emptyEnv (.obj [("xs", .arr [.null])]) [("xs", recArrMetaCex)] "D"
      = .ok (.obj [("xs", .arr [.null])]) := by
  refine ⟨rfl, ?_⟩
  simp [transform, transformEntries, transformField, transformFieldItems,
    elemRule, hasOwn, getProp, lookupField, recArrMetaCex, FieldMeta.typeCheck,
    emptyEnv, isUndefV, isNullV]

/-- Claim C6 as amended: for a RecordArray or ScalarArray field receiving
a sequence, `transformField` maps the per-element rule over the elements
preserving order and length; an absent-sentinel element raises the
`Invalid value in array` error at path `field[index]` regardless of the
field's nullability; a null element of a nullable field maps to null; and
a null element of a non-nullable RecordArray field is likewise accepted
and maps to null (the recursive transform of a null root), rather than
being rejected.  (A null element of a non-nullable ScalarArray field is
handed to the primitive coercer.) -/
theorem transformField_array_behavior (env : Env) (items : List JsVal)
    (m : FieldMeta) (p : String)
    (hm : m.isNestedObject = false) (htc : m.typeCheck = 4 ∨ m.typeCheck = 16) :
    (∀ out, transformField env (.arr items) m p = .ok out →
      ∃ outs, out = .arr outs ∧ outs.length = items.length ∧
        ∀ j (hj : j < items.length) (hj2 : j < outs.length),
          elemRule env (items.get ⟨j, hj⟩) m p j (.arr items)
            = .ok (outs.get ⟨j, hj2⟩)) ∧
    (JsVal.undef ∈ items → ∀ out, transformField env (.arr items) m p ≠ .ok out) ∧
    (∀ j (orig : JsVal),
      elemRule env .undef m p j orig = .error (invalidArrayErr p j orig)) ∧
    (m.nullable = true → ∀ j (orig : JsVal),
      elemRule env .null m p j orig = .ok .null) ∧
    (m.nullable = false → m.typeCheck = 4 → ∀ j (orig : JsVal),
      elemRule env .null m p j orig = .ok .null) := by
  have harr : transformField env (.arr items) m p =
      (transformFieldItems env items m p 0 (JsVal.arr items)).map JsVal.arr := by
    rw [transformField.eq_def]
    rcases htc with htc | htc <;> simp [hm, htc, isUndefV, isNullV]
  refine ⟨?_, ?_, ?_, ?_, ?_⟩
  · intro out h
    rw [harr] at h
    obtain ⟨outs, houts, hout⟩ := except_map_eq_ok h
    exact ⟨outs, hout, transformFieldItems_length houts,
      fun j hj hj2 => by simpa using transformFieldItems_get houts j hj hj2⟩
  · intro hmem out
    rw [harr]
    cases hr : transformFieldItems env items m p 0 (JsVal.arr items) with
    | error e => simp
    | ok ts => exact absurd hr (transformFieldItems_undef hmem ts)
  · intro j orig
    simp [elemRule, isUndefV]
  · intro hn j orig
    simp [elemRule, isUndefV, isNullV, hn]
  · intro hn h4 j orig
    simp [elemRule, isUndefV, isNullV, hn, h4, transform]

/-- Witness for the amended C6 at a concrete nullable string-array field:
mapping, length and the null-element rule at a concrete input. -/
theorem transformField_array_behavior_witness :
    (FieldMeta.mk false true false false false false false true false
        (some "string") [] "" []).typeCheck = 16 ∧
    (FieldMeta.mk false true false false false false false true false
        (some "string") [] "" []).isNestedObject = false ∧
    elemRule emptyEnv .null
      (FieldMeta.mk false true false false false false false true false
        (some "string") [] "" []) "D.xs" 0 (.arr [.null]) = .ok .null :=
  ⟨rfl, rfl,
    (transformField_array_behavior emptyEnv [.null]
      (FieldMeta.mk false true false false false false false true false
        (some "string") [] "" []) "D.xs" rfl (Or.inr rfl)).2.2.2.1 rfl 0
      (.arr [.null])⟩

/-! ### The nested-structure double pass (claim C7) -/

/-- The scalar number field metadata used inside the C7 nested example. -/
def numFieldMeta : FieldMeta :=
  .mk false false false false true false false false false (some "number") [] "" []

/-- The nested-structure field metadata with one inline number field, used
to refute claim C7. -/
def nestedNumMeta : FieldMeta :=
  .mk false false false false false false false false true none [] ""
    [("n", numFieldMeta)]

/-- Counterexample to claim C7: on the nested value `{n: "42"}` the
single-pass handling (primary recursive transform only) accepts and
coerces to `{n: 42}`, while the defensive two-pass handling raises
`Invalid type for nested field 'n'` from the secondary pass, which
re-checks the raw received value without coercion.  The two revisions do
not have the same accept/reject outcome. -/
theorem transformField_two_pass_differs :
    transformFieldNestedPrimary emptyEnv (.obj [("n", .str "42")])
      nestedNumMeta "D.s" = .ok (.obj [("n", .num 42)]) ∧
    transformField emptyEnv (.obj [("n", .str "42")]) nestedNumMeta "D.s"
      = .error (invalidNestedErr "n" (.str "42") (some "number")
          (.obj [("n", .str "42")]) "D.s") := by
  have hpar : jsStringToNumber "42" = .num ((42 : ℕ) : ℚ) := rfl
  have hco : coerceToPrimitiveType (.str "42") (some "number") = .ok (.num 42) := by
    simp [coerceToPrimitiveType, jsToNumber, hpar]
  constructor
  · simp [transformFieldNestedPrimary, transform, transformEntries,
      transformField, transformPrimitive, nestedNumMeta, numFieldMeta,
      FieldMeta.typeCheck, hasOwn, getProp, lookupField, isUndefV, isNullV,
      jsTypeof, validatePrimitiveType, hco]
  · rw [transformField.eq_def]
    simp [transform, transformEntries, transformField, transformPrimitive,
      nestedSecondPass, validateFieldType, nestedNumMeta, numFieldMeta,
      FieldMeta.typeCheck, hasOwn, getProp, lookupField, isUndefV, isNullV,
      jsTypeof, validatePrimitiveType, hco]

/-- Claim C7 as amended: the defensive two-pass handling of a
NestedStructure field refines the single-pass handling in one direction
only: whenever the two-pass handling accepts, the single-pass handling
accepts with the same output, and whenever the primary pass rejects, the
two-pass handling raises exactly the primary pass's error; but the
secondary pass can additionally reject values the primary pass accepts
(as the counterexample shows), so the two are not equivalent. -/
theorem transformField_nested_refines (env : Env) (v : JsVal) (m : FieldMeta)
    (p : String) (hm : m.isNestedObject = true) (hv1 : v ≠ .undef)
    (hv2 : ¬(v = .null ∧ m.nullable = true)) :
    (∀ out, transformField env v m p = .ok out →
      transformFieldNestedPrimary env v m p = .ok out) ∧
    (∀ e, transformFieldNestedPrimary env v m p = .error e →
      transformField env v m p = .error e) := by
  have hcond : ¬((isNullV v && m.nullable) = true) := by
    simp only [Bool.and_eq_true, isNullV_eq_true]
    exact hv2
  have hfield : transformField env v m p =
      if (!(jsTypeof v == "object") || isNullV v) = true then
        .error (notObjectErr v p)
      else
        (transform env v m.nestedFields p).bind (fun tn =>
          (nestedSecondPass v m.nestedFields p).bind (fun _ => Except.ok tn)) := by
    rw [transformField.eq_def]
    simp [hv1, hcond, hm]
    rfl
  constructor
  · intro out h
    rw [hfield] at h
    rw [transformFieldNestedPrimary]
    by_cases hobj : (!(jsTypeof v == "object") || isNullV v) = true
    · simp [hobj] at h
    · simp only [hobj, if_false] at h ⊢
      cases ht : transform env v m.nestedFields p with
      | error e => simp [ht, Except.bind] at h
      | ok tn =>
        cases hs : nestedSecondPass v m.nestedFields p with
        | error e => simp [ht, hs, Except.bind] at h
        | ok u =>
          simp [ht, hs, Except.bind] at h
          simp [h]
  · intro e he
    rw [transformFieldNestedPrimary] at he
    rw [hfield]
    by_cases hobj : (!(jsTypeof v == "object") || isNullV v) = true
    · simpa [hobj] using he
    · simp only [hobj, if_false] at he ⊢
      cases ht : transform env v m.nestedFields p with
      | error e2 =>
        simp [ht] at he
        simp [Except.bind, ← he]
      | ok tn => simp [ht] at he

/-- Witness for the amended C7: on an already-typed nested value both the
two-pass and the single-pass handling accept with the same output. -/
theorem transformField_nested_refines_witness :
    nestedNumMeta.isNestedObject = true ∧
    transformField emptyEnv (.obj [("n", .num 5)]) nestedNumMeta "D.s"
      = .ok (.obj [("n", .num 5)]) ∧
    transformFieldNestedPrimary emptyEnv (.obj [("n", .num 5)]) nestedNumMeta
      "D.s" = .ok (.obj [("n", .num 5)]) := by
  have h2 : transformField emptyEnv (.obj [("n", .num 5)]) nestedNumMeta "D.s"
      = .ok (.obj [("n", .num 5)]) := by
    rw [transformField.eq_def]
    simp [transform, transformEntries, transformField, transformPrimitive,
      nestedSecondPass, validateFieldType, nestedNumMeta, numFieldMeta,
      FieldMeta.typeCheck, hasOwn, getProp, lookupField, isUndefV, isNullV,
      jsTypeof, validatePrimitiveType]
  refine ⟨rfl, h2, ?_⟩
  exact (transformField_nested_refines emptyEnv (.obj [("n", .num 5)])
    nestedNumMeta "D.s" rfl (by simp) (by simp)).1 _ h2

/-! ### Output filtering (claim C1) -/

theorem prepareMetadata_keys (md : List (String × RawField)) (cnc cncp : Bool) :
    (prepareMetadata md true cnc cncp).map Prod.fst
      = (md.filter (fun x => !x.2.noOut)).map Prod.fst := by
  induction md with
  | nil => simp [prepareMetadata]
  | cons e rest ih =>
    obtain ⟨k, rf⟩ := e
    rw [prepareMetadata.eq_def]
    cases hno : rf.noOut with
    | true => simpa [hno] using ih
    | false => simpa [hno] using ih

theorem transformEntries_nil (env : Env) (o : JsVal) (d : String) :
    transformEntries env o [] d = .ok [] := by
  rw [transformEntries.eq_def]

theorem transformEntries_cons (env : Env) (o : JsVal) (k : String)
    (m : FieldMeta) (rest : Filter) (d : String) :
    transformEntries env o ((k, m) :: rest) d =
      if !(hasOwn o k) then
        if !m.noCheck && (m.required || m.isNestedObject) then
          .error (missingErr k d o)
        else transformEntries env o rest d
      else if isUndefV (getProp o k) then
        if !m.noCheck && m.required then .error (undefinedErr k d o)
        else transformEntries env o rest d
      else if isNullV (getProp o k) then
        if m.noCheck || m.nullable then
          (transformEntries env o rest d).map
            (fun tail => (k, JsVal.null) :: tail)
        else .error (nullErr k d o)
      else
        (transformField env (getProp o k) m (d ++ "." ++ k)).bind (fun tv =>
          (transformEntries env o rest d).bind (fun tail =>
            Except.ok ((k, tv) :: tail))) := by
  rw [transformEntries.eq_def]
  rfl

theorem transformEntries_keys_sublist {env : Env} {o : JsVal} {entries : Filter}
    {d : String} {built : List (String × JsVal)}
    (h : transformEntries env o entries d = .ok built) :
    (built.map Prod.fst).Sublist (entries.map Prod.fst) := by
  induction entries generalizing built with
  | nil =>
    rw [transformEntries_nil] at h
    cases h
    simp
  | cons e rest ih =>
    obtain ⟨k, m⟩ := e
    rw [transformEntries_cons] at h
    split at h
    · split at h
      · simp at h
      · exact (ih h).cons _
    · split at h
      · split at h
        · simp at h
        · exact (ih h).cons _
      · split at h
        · split at h
          · obtain ⟨tail, htail, hbuilt⟩ := except_map_eq_ok h
            subst hbuilt
            simpa using (ih htail).cons₂ k
          · simp at h
        · cases hf : transformField env (getProp o k) m (d ++ "." ++ k) with
          | error e2 => simp [hf, Except.bind] at h
          | ok tv =>
            cases hr : transformEntries env o rest d with
            | error e2 => simp [hf, hr, Except.bind] at h
            | ok tail =>
              simp [hf, hr, Except.bind] at h
              rw [← h]
              simpa using (ih hr).cons₂ k

theorem lookupField_eq_none {fields : List (String × JsVal)} {k : String}
    (h : k ∉ fields.map Prod.fst) : lookupField fields k = none := by
  induction fields with
  | nil => rfl
  | cons e rest ih =>
    obtain ⟨k2, v⟩ := e
    simp only [List.map_cons, List.mem_cons] at h
    push_neg at h
    rw [lookupField, if_neg (fun hh => h.1 hh.symm)]
    exact ih h.2

/-- Claim C1: for every raw schema and every plain-record input, a
successful transform through the prepared filter yields an object whose
keys form a sublist (hence a subset, in declaration order) of the
schema's declared keys with the output-excluded (`@NoOut`) ones removed;
every input key not declared, and every output-excluded key, is absent
from the output. -/
theorem transform_output_only_declared_keys (env : Env)
    (raw : List (String × RawField)) (cnc cncp : Bool)
    (fields : List (String × JsVal)) (d : String) (out : JsVal)
    (h : transform env (.obj fields) (prepareMetadata raw true cnc cncp) d
      = .ok out) :
    ∃ outFields, out = .obj outFields ∧
      (outFields.map Prod.fst).Sublist
        ((raw.filter (fun x => !x.2.noOut)).map Prod.fst) ∧
      ∀ k, k ∉ (raw.filter (fun x => !x.2.noOut)).map Prod.fst →
        lookupField outFields k = none := by
  rw [transform.eq_def] at h
  simp only [isUndefV, isNullV, Bool.or_self, Bool.false_eq_true, if_false] at h
  obtain ⟨built, hb, hout⟩ := except_map_eq_ok h
  have hsub := transformEntries_keys_sublist hb
  rw [prepareMetadata_keys] at hsub
  refine ⟨built, hout, hsub, ?_⟩
  intro k hk
  exact lookupField_eq_none (fun hmem => hk (hsub.subset hmem))

/-- The raw metadata of the witness schema for C1: a required number, a
required string, and a `@NoOut` string. -/
def rawUser : List (String × RawField) :=
  [("id", .mk .ctorNumber none true false false false),
   ("name", .mk .ctorString none true false false false),
   ("password", .mk .ctorString none false false false true)]

/-- Witness for C1 at a concrete schema and input carrying both an
undeclared extra key and an output-excluded key. -/
theorem transform_output_only_declared_keys_witness :
    ∃ outFields,
      JsVal.obj [("id", JsVal.num 1), ("name", JsVal.str "John")]
        = .obj outFields ∧
      (outFields.map Prod.fst).Sublist
        ((rawUser.filter (fun x => !x.2.noOut)).map Prod.fst) ∧
      ∀ k, k ∉ (rawUser.filter (fun x => !x.2.noOut)).map Prod.fst →
        lookupField outFields k = none := by
  apply transform_output_only_declared_keys emptyEnv rawUser false false
    [("id", .num 1), ("name", .str "John"), ("extra", .str "x"),
      ("password", .str "secret")] "User"
  have hfil : prepareMetadata rawUser true false false =
      [("id", FieldMeta.mk true false false false true false false false false
        (some "number") [] "" []),
       ("name", FieldMeta.mk true false false false true false false false false
        (some "string") [] "" [])] := by
    simp [rawUser, prepareMetadata, prepareField, isClassT, getExpectedTypeName,
      refNameOf, arrElemType, RawField.noOut, RawField.noCheckProp,
      RawField.type, RawField.enumVals, RawField.required, RawField.nullable]
  rw [hfil]
  simp [transform, transformEntries, transformField, transformPrimitive,
    hasOwn, getProp, lookupField, isUndefV, isNullV, validatePrimitiveType,
    FieldMeta.typeCheck]

/-! ### Idempotence infrastructure (claim C8) -/

/-- A filter with duplicate-free field names none of which is a
nested-structure field (as the amended idempotence claim requires). -/
def filterPlain (f : Filter) : Prop :=
  (f.map Prod.fst).Nodup ∧ ∀ e ∈ f, (e : String × FieldMeta).2.isNestedObject = false

/-- Every schema the cache can hand out is plain. -/
def envPlain (env : Env) : Prop := ∀ n, filterPlain (env n)

@[simp] theorem lookupField_cons_self (k : String) (v : JsVal)
    (rest : List (String × JsVal)) :
    lookupField ((k, v) :: rest) k = some v := by
  simp [lookupField]

theorem lookupField_cons_ne {k k2 : String} (v : JsVal)
    (rest : List (String × JsVal)) (hne : k2 ≠ k) :
    lookupField ((k, v) :: rest) k2 = lookupField rest k2 := by
  rw [lookupField, if_neg (fun hh => hne hh.symm)]

theorem hasOwn_obj (l : List (String × JsVal)) (k : String) :
    hasOwn (.obj l) k = (lookupField l k).isSome := rfl

theorem getProp_obj (l : List (String × JsVal)) (k : String) :
    getProp (.obj l) k = (lookupField l k).getD .undef := rfl

theorem validate_undef_false (et : Option String) :
    validatePrimitiveType .undef et = false := by
  simp [validatePrimitiveType]

theorem validate_null_false (et : Option String) :
    validatePrimitiveType .null et = false := by
  simp [validatePrimitiveType]

/-- A value passing the primitive check is neither the absent-sentinel nor
null. -/
theorem validate_not_undef_null {c : JsVal} {et : Option String}
    (h : validatePrimitiveType c et = true) : c ≠ .undef ∧ c ≠ .null := by
  constructor <;> rintro rfl <;>
    simp [validate_undef_false, validate_null_false] at h

/-- A checked (non-`noCheck`) primitive result always passes the check. -/
theorem transformPrimitive_ok_validate {v : JsVal} {m : FieldMeta} {p : String}
    {w : JsVal} (hnc : m.noCheck = false)
    (h : transformPrimitive v m p = .ok w) :
    validatePrimitiveType w m.expectedType = true := by
  rw [transformPrimitive] at h
  simp only [hnc, Bool.false_eq_true, if_false] at h
  split at h
  · cases h
    assumption
  · split at h
    · split at h
      · cases h
        assumption
      · simp at h
    · simp at h

/-- The primitive coercer is idempotent on its successes. -/
theorem transformPrimitive_idem (p2 : String) {v : JsVal} {m : FieldMeta}
    {p : String} {w : JsVal} (h : transformPrimitive v m p = .ok w) :
    transformPrimitive w m p2 = .ok w := by
  cases hnc : m.noCheck with
  | true =>
    rw [transformPrimitive] at h
    simp only [hnc, if_true] at h
    cases h
    rw [transformPrimitive]
    simp [hnc]
  | false =>
    have hval := transformPrimitive_ok_validate hnc h
    rw [transformPrimitive]
    simp [hnc, hval]

/-- A non-`noCheck` primitive result is neither the absent-sentinel nor
null; a `noCheck` result equals the received value. -/
theorem transformPrimitive_ok_not_undef_null {v : JsVal} {m : FieldMeta}
    {p : String} {w : JsVal} (h : transformPrimitive v m p = .ok w)
    (hv1 : v ≠ .undef) : w ≠ .undef ∧ (w = .null → v = .null) := by
  cases hnc : m.noCheck with
  | true =>
    rw [transformPrimitive] at h
    simp only [hnc, if_true] at h
    cases h
    exact ⟨hv1, fun hh => hh⟩
  | false =>
    have hval := transformPrimitive_ok_validate hnc h
    have := validate_not_undef_null hval
    exact ⟨this.1, fun hh => absurd hh this.2⟩

/-- A successful transform of a non-nullish root is an array or an
object. -/
theorem transform_ok_shape {env : Env} {v : JsVal} {f : Filter} {d : String}
    {out : JsVal} (h : transform env v f d = .ok out) (hv1 : v ≠ .undef)
    (hv2 : v ≠ .null) :
    (∃ l, out = JsVal.arr l) ∨ (∃ l, out = JsVal.obj l) := by
  cases v
  case undef => exact absurd rfl hv1
  case null => exact absurd rfl hv2
  case arr elems =>
    rw [transform.eq_def] at h
    simp only [isUndefV, isNullV, Bool.or_self, Bool.false_eq_true, if_false] at h
    obtain ⟨l, _, hl⟩ := except_map_eq_ok h
    exact Or.inl ⟨l, hl⟩
  all_goals rw [transform.eq_def] at h
  all_goals simp only [isUndefV, isNullV, Bool.or_self, Bool.or_false,
    Bool.false_eq_true, if_false] at h
  all_goals obtain ⟨l, _, hl⟩ := except_map_eq_ok h
  all_goals exact Or.inr ⟨l, hl⟩

theorem transformElems_nil (env : Env) (f : Filter) (d : String) :
    transformElems env [] f d = .ok [] := by
  rw [transformElems.eq_def]

theorem transformElems_cons (env : Env) (e : JsVal) (rest : List JsVal)
    (f : Filter) (d : String) :
    transformElems env (e :: rest) f d =
      (transform env e f d).bind (fun te =>
        (transformElems env rest f d).bind
          (fun trest => Except.ok (te :: trest))) := by
  rw [transformElems.eq_def]
  rfl

theorem transformFieldItems_nil (env : Env) (m : FieldMeta) (p : String)
    (i : Nat) (orig : JsVal) :
    transformFieldItems env [] m p i orig = .ok [] := by
  rw [transformFieldItems.eq_def]

theorem transformFieldItems_cons (env : Env) (item : JsVal)
    (rest : List JsVal) (m : FieldMeta) (p : String) (i : Nat) (orig : JsVal) :
    transformFieldItems env (item :: rest) m p i orig =
      (elemRule env item m p i orig).bind (fun t =>
        (transformFieldItems env rest m p (i + 1) orig).bind
          (fun ts => Except.ok (t :: ts))) := by
  rw [transformFieldItems.eq_def]
  rfl

theorem transformField_undef (env : Env) (m : FieldMeta) (p : String) :
    transformField env .undef m p =
      if m.required = true then .error (fieldMissingErr m p)
      else .ok .undef := by
  rw [transformField.eq_def]
  simp [isUndefV]

theorem transformField_null_nullable (env : Env) (m : FieldMeta) (p : String)
    (hn : m.nullable = true) :
    transformField env .null m p = .ok .null := by
  rw [transformField.eq_def]
  simp [isUndefV, isNullV, hn]

/-- The kind dispatch of `transformField` once the preamble does not fire
and the field is not a nested structure. -/
theorem transformField_dispatch {env : Env} {v : JsVal} {m : FieldMeta}
    {p : String} (hv1 : v ≠ .undef) (hnn : ¬(v = .null ∧ m.nullable = true))
    (hm : m.isNestedObject = false) :
    transformField env v m p =
      if m.typeCheck = 1 then transformPrimitive v m p
      else if m.typeCheck = 2 ∨ m.typeCheck = 32 then
        if !(jsTypeof v == "object") || isNullV v then
          .error (notObjectErr v p)
        else transform env v (env m.refName) p
      else if m.typeCheck = 4 ∨ m.typeCheck = 16 then
        match v with
        | .arr items =>
          (transformFieldItems env items m p 0 (JsVal.arr items)).map JsVal.arr
        | _ => .error (notArrayErr v p)
      else if m.typeCheck = 8 then
        if !(jsIncludes m.enumValues v) then
          .error (enumErr v m.enumValues p)
        else .ok v
      else .error (unexpectedErr v p) := by
  have hcond : ¬((isNullV v && m.nullable) = true) := by
    simp only [Bool.and_eq_true, isNullV_eq_true]
    exact hnn
  have h1 : ¬(isUndefV v = true) := by simp [hv1]
  rw [transformField.eq_def, hm, if_neg h1, if_neg hcond]
  simp only [Bool.false_eq_true, if_false]
  cases v <;> rfl

/-- A successful `transformField` of a non-nested field on a non-nullish
value is itself non-nullish. -/
theorem transformField_ok_shape {env : Env} {v : JsVal} {m : FieldMeta}
    {p : String} {out : JsVal} (hm : m.isNestedObject = false)
    (h : transformField env v m p = .ok out) (hv1 : v ≠ .undef)
    (hv2 : v ≠ .null) : out ≠ .undef ∧ out ≠ .null := by
  rw [transformField_dispatch hv1 (fun hc => hv2 hc.1) hm] at h
  split at h
  · obtain ⟨hu, hn⟩ := transformPrimitive_ok_not_undef_null h hv1
    exact ⟨hu, fun hh => absurd (hn hh) hv2⟩
  · split at h
    · split at h
      · simp at h
      · rcases transform_ok_shape h hv1 hv2 with ⟨l, hl⟩ | ⟨l, hl⟩ <;>
          subst hl <;> exact ⟨by simp, by simp⟩
    · split at h
      · split at h
        · obtain ⟨outs, _, hout⟩ := except_map_eq_ok h
          subst hout
          exact ⟨by simp, by simp⟩
        · simp at h
      · split at h
        · split at h
          · simp at h
          · cases h
            exact ⟨hv1, hv2⟩
        · simp at h

/-- The element rule is idempotent on its successes, given idempotence of
the recursive transform on the element. -/
theorem elemRule_idem (orig2 : JsVal) {env : Env} {item : JsVal}
    {m : FieldMeta} {p : String} {i : Nat} {orig : JsVal} {t : JsVal}
    (hIH : ∀ out,
      transform env item (env m.refName) (p ++ "[" ++ toString i ++ "]")
        = .ok out →
      transform env out (env m.refName) (p ++ "[" ++ toString i ++ "]")
        = .ok out)
    (h : elemRule env item m p i orig = .ok t) :
    elemRule env t m p i orig2 = .ok t := by
  rw [elemRule.eq_def] at h
  split at h
  · simp at h
  · rename_i hiu
    rw [Bool.not_eq_true, isUndefV_eq_false] at hiu
    split at h
    · rename_i hnulb
      rw [Bool.and_eq_true, isNullV_eq_true] at hnulb
      cases h
      rw [elemRule.eq_def]
      simp [isUndefV, isNullV, hnulb.2]
    · rename_i hnn
      split at h
      · rename_i h4
        by_cases hitem : item = .null
        · subst hitem
          have hnul : transform env .null (env m.refName)
              (p ++ "[" ++ toString i ++ "]") = .ok .null := by
            rw [transform.eq_def]
            simp [isUndefV, isNullV]
          rw [hnul] at h
          cases h
          have hnulb : m.nullable = false := by
            cases hq : m.nullable
            · rfl
            · exact absurd (by simp [isNullV, hq]) hnn
          rw [elemRule.eq_def]
          simp [isUndefV, isNullV, hnulb, h4, hnul]
        · have ht := hIH t h
          obtain hsh := transform_ok_shape h hiu hitem
          have ht1 : t ≠ .undef := by
            rcases hsh with ⟨l, hl⟩ | ⟨l, hl⟩ <;> subst hl <;> simp
          have ht2 : t ≠ .null := by
            rcases hsh with ⟨l, hl⟩ | ⟨l, hl⟩ <;> subst hl <;> simp
          rw [elemRule.eq_def]
          simp [ht1, ht2, h4, ht]
      · rename_i h4
        have hidem := transformPrimitive_idem
          (p ++ "[" ++ toString i ++ "]") h
        have hnu := transformPrimitive_ok_not_undef_null h hiu
        have hnn2 : ¬((isNullV t && m.nullable) = true) := by
          intro hc
          rw [Bool.and_eq_true, isNullV_eq_true] at hc
          exact hnn (by simp [isNullV_eq_true.mpr (hnu.2 hc.1), hc.2,
            hnu.2 hc.1])
        rw [elemRule.eq_def]
        simp only [hnu.1, isUndefV_eq_true, if_false, hnn2, h4]
        simp [hnu.1, hnn2, h4, hidem]

/-- The indexed element map is idempotent on its successes. -/
theorem transformFieldItems_idem (orig2 : JsVal) {env : Env}
    {items : List JsVal} {m : FieldMeta} {p : String} {i : Nat}
    {orig : JsVal} {outs : List JsVal}
    (hIH : ∀ item, item ∈ items → ∀ (j : Nat) out,
      transform env item (env m.refName) (p ++ "[" ++ toString j ++ "]")
        = .ok out →
      transform env out (env m.refName) (p ++ "[" ++ toString j ++ "]")
        = .ok out)
    (h : transformFieldItems env items m p i orig = .ok outs) :
    transformFieldItems env outs m p i orig2 = .ok outs := by
  induction items generalizing i outs with
  | nil =>
    rw [transformFieldItems_nil] at h
    cases h
    rw [transformFieldItems_nil]
  | cons item rest ih =>
    rw [transformFieldItems_cons] at h
    cases he : elemRule env item m p i orig with
    | error e => simp [he, Except.bind] at h
    | ok t =>
      cases hr : transformFieldItems env rest m p (i + 1) orig with
      | error e => simp [he, hr, Except.bind] at h
      | ok ts =>
        simp [he, hr, Except.bind] at h
        rw [← h]
        rw [transformFieldItems_cons]
        have he2 := elemRule_idem orig2 (hIH item (by simp) i) he
        have hr2 := ih (fun it hmem j out hh =>
          hIH it (by simp [hmem]) j out hh) hr
        simp [he2, hr2, Except.bind]

@[simp] theorem except_bind_ok {A E B : Type} (a : A) (f : A → Except E B) :
    Except.bind (Except.ok a : Except E A) f = f a := rfl

@[simp] theorem except_bind_error {A E B : Type} (e : E) (f : A → Except E B) :
    Except.bind (Except.error e : Except E A) f = .error e := rfl

/-- The element map of an array root is idempotent on its successes. -/
theorem transformElems_idem {env : Env} {elems : List JsVal} {f : Filter}
    {d : String} {outs : List JsVal}
    (hIH : ∀ e ∈ elems, ∀ out, transform env e f d = .ok out →
      transform env out f d = .ok out)
    (h : transformElems env elems f d = .ok outs) :
    transformElems env outs f d = .ok outs := by
  induction elems generalizing outs with
  | nil =>
    rw [transformElems_nil] at h
    cases h
    rw [transformElems_nil]
  | cons e rest ih =>
    rw [transformElems_cons] at h
    cases he : transform env e f d with
    | error e2 => simp [he] at h
    | ok te =>
      cases hr : transformElems env rest f d with
      | error e2 => simp [he, hr] at h
      | ok ts =>
        simp [he, hr] at h
        rw [← h, transformElems_cons]
        have he2 := hIH e (by simp) te he
        have hr2 := ih (fun x hx out hh => hIH x (by simp [hx]) out hh) hr
        simp [he2, hr2]

/-- `transformField` on a non-nested field is idempotent on its successes,
given idempotence of the recursive transform on values no larger than the
received one. -/
theorem transformField_idem {env : Env} {v : JsVal} {m : FieldMeta}
    {p : String} {out : JsVal} (henv : envPlain env)
    (hm : m.isNestedObject = false)
    (hIH : ∀ w, sizeOf w ≤ sizeOf v → ∀ (f : Filter) (d : String) out2,
      filterPlain f → transform env w f d = .ok out2 →
      transform env out2 f d = .ok out2)
    (h : transformField env v m p = .ok out) :
    transformField env out m p = .ok out := by
  by_cases hv1 : v = .undef
  · subst hv1
    rw [transformField_undef] at h
    split at h
    · simp at h
    · rename_i hreq
      cases h
      rw [transformField_undef, if_neg hreq]
  · by_cases hnn : v = .null ∧ m.nullable = true
    · obtain ⟨hv2, hnul⟩ := hnn
      subst hv2
      rw [transformField_null_nullable env m p hnul] at h
      cases h
      exact transformField_null_nullable env m p hnul
    · rw [transformField_dispatch hv1 hnn hm] at h
      split at h
      · rename_i h1
        have hidem := transformPrimitive_idem p h
        have hnu := transformPrimitive_ok_not_undef_null h hv1
        have hnn2 : ¬(out = .null ∧ m.nullable = true) := by
          rintro ⟨ho, hnl⟩
          exact hnn ⟨hnu.2 ho, hnl⟩
        rw [transformField_dispatch hnu.1 hnn2 hm, if_pos h1]
        exact hidem
      · rename_i hno1
        split at h
        · rename_i h2
          split at h
          · simp at h
          · rename_i hobj
            have hv2 : v ≠ .null := by
              rintro rfl
              exact hobj (by simp [isNullV])
            have hsh := transform_ok_shape h hv1 hv2
            have ht := hIH v (le_refl _) (env m.refName) p out (henv _) h
            have ho1 : out ≠ .undef := by
              rcases hsh with ⟨l, hl⟩ | ⟨l, hl⟩ <;> subst hl <;> simp
            have ho2 : out ≠ .null := by
              rcases hsh with ⟨l, hl⟩ | ⟨l, hl⟩ <;> subst hl <;> simp
            have hcn : ¬((!(jsTypeof out == "object") || isNullV out) = true) := by
              rcases hsh with ⟨l, hl⟩ | ⟨l, hl⟩ <;> subst hl <;>
                simp [jsTypeof, isNullV]
            rw [transformField_dispatch ho1 (fun hc => ho2 hc.1) hm,
              if_neg hno1, if_pos h2, if_neg hcn]
            exact ht
        · rename_i hno2
          split at h
          · rename_i h4
            cases v
            all_goals try
              (simp at h
               done)
            rename_i items
            have hmap : Except.map JsVal.arr
                (transformFieldItems env items m p 0 (JsVal.arr items))
                = .ok out := h
            obtain ⟨outs, houts, hout⟩ := except_map_eq_ok hmap
            subst hout
            have hIHitems : ∀ item, item ∈ items → ∀ (j : Nat) out2,
                transform env item (env m.refName)
                  (p ++ "[" ++ toString j ++ "]") = .ok out2 →
                transform env out2 (env m.refName)
                  (p ++ "[" ++ toString j ++ "]") = .ok out2 := by
              intro item hmem j out2 hh
              have h1 : sizeOf item < sizeOf items :=
                List.sizeOf_lt_of_mem hmem
              have h2 : sizeOf items < sizeOf (JsVal.arr items) := by
                simp
              exact hIH item (by omega) (env m.refName) _ out2 (henv _) hh
            have hitems := transformFieldItems_idem (JsVal.arr outs)
              hIHitems houts
            have hnn2 : ¬(JsVal.arr outs = .null ∧ m.nullable = true) := by
              rintro ⟨hc, _⟩
              cases hc
            rw [transformField_dispatch (by simp) hnn2 hm, if_neg hno1,
              if_neg hno2, if_pos h4]
            simp [hitems]
          · rename_i hno3
            split at h
            · rename_i h8
              split at h
              · simp at h
              · rename_i hin
                cases h
                rw [transformField_dispatch hv1 hnn hm, if_neg hno1,
                  if_neg hno2, if_neg hno3, if_pos h8, if_neg hin]
            · simp at h

/-- `transformEntries` reads the walked object only through `hasOwn` and
`getProp` at its own keys: two objects agreeing there produce the same
successes. -/
theorem transformEntries_agree {env : Env} {o1 o2 : JsVal} {entries : Filter}
    {d : String} {built : List (String × JsVal)}
    (hagree : ∀ k m, (k, m) ∈ entries →
      hasOwn o1 k = hasOwn o2 k ∧ getProp o1 k = getProp o2 k)
    (h : transformEntries env o1 entries d = .ok built) :
    transformEntries env o2 entries d = .ok built := by
  induction entries generalizing built with
  | nil =>
    rw [transformEntries_nil] at h ⊢
    exact h
  | cons e rest ih =>
    obtain ⟨k, m⟩ := e
    have hh := hagree k m (by simp)
    have ihr : ∀ built2, transformEntries env o1 rest d = .ok built2 →
        transformEntries env o2 rest d = .ok built2 := fun b2 hb =>
      ih (fun k2 m2 hm2 => hagree k2 m2 (by simp [hm2])) hb
    rw [transformEntries_cons] at h
    rw [transformEntries_cons, ← hh.1, ← hh.2]
    by_cases c1 : (!(hasOwn o1 k)) = true
    · rw [if_pos c1] at h ⊢
      by_cases c2 : (!m.noCheck && (m.required || m.isNestedObject)) = true
      · rw [if_pos c2] at h
        simp at h
      · rw [if_neg c2] at h ⊢
        exact ihr _ h
    · rw [if_neg c1] at h ⊢
      by_cases c3 : isUndefV (getProp o1 k) = true
      · rw [if_pos c3] at h ⊢
        by_cases c4 : (!m.noCheck && m.required) = true
        · rw [if_pos c4] at h
          simp at h
        · rw [if_neg c4] at h ⊢
          exact ihr _ h
      · rw [if_neg c3] at h ⊢
        by_cases c5 : isNullV (getProp o1 k) = true
        · rw [if_pos c5] at h ⊢
          by_cases c6 : (m.noCheck || m.nullable) = true
          · rw [if_pos c6] at h ⊢
            obtain ⟨tail, htail, hb⟩ := except_map_eq_ok h
            subst hb
            rw [ihr _ htail]
            rfl
          · rw [if_neg c6] at h
            simp at h
        · rw [if_neg c5] at h ⊢
          cases hf : transformField env (getProp o1 k) m (d ++ "." ++ k) with
          | error e2 =>
            rw [hf] at h
            simp at h
          | ok tv =>
            rw [hf] at h
            simp only [except_bind_ok] at h ⊢
            cases hr : transformEntries env o1 rest d with
            | error e2 =>
              rw [hr] at h
              simp at h
            | ok tail =>
              rw [hr] at h
              simp only [except_bind_ok] at h
              rw [ihr _ hr]
              simp only [except_bind_ok]
              exact h

/-- Keys outside a filter's key set look the same through a prepended
binding. -/
theorem agree_cons (x : JsVal) (tail : List (String × JsVal)) {k : String}
    {rest : Filter} (hknotin : k ∉ rest.map Prod.fst) :
    ∀ k2 m2, (k2, m2) ∈ rest →
      hasOwn (.obj tail) k2 = hasOwn (.obj ((k, x) :: tail)) k2 ∧
      getProp (.obj tail) k2 = getProp (.obj ((k, x) :: tail)) k2 := by
  intro k2 m2 hm2
  have hne : k2 ≠ k := fun hc =>
    hknotin (hc ▸ (List.mem_map.mpr ⟨(k2, m2), hm2, rfl⟩))
  rw [hasOwn_obj, hasOwn_obj, getProp_obj, getProp_obj,
    lookupField_cons_ne x tail hne]
  exact ⟨rfl, rfl⟩

/-- The field loop is idempotent: re-walking the built output object under
the same (plain, duplicate-free) entries reproduces it, given idempotence
of `transformField` at the object's own values. -/
theorem transformEntries_idem {env : Env} {o : JsVal} {entries : Filter}
    {d : String} {built : List (String × JsVal)}
    (hnd : (entries.map Prod.fst).Nodup)
    (hpl : ∀ e ∈ entries, (e : String × FieldMeta).2.isNestedObject = false)
    (hfld : ∀ k m, (k, m) ∈ entries → hasOwn o k = true →
      ∀ out, transformField env (getProp o k) m (d ++ "." ++ k) = .ok out →
        transformField env out m (d ++ "." ++ k) = .ok out)
    (h : transformEntries env o entries d = .ok built) :
    transformEntries env (.obj built) entries d = .ok built := by
  induction entries generalizing built with
  | nil =>
    rw [transformEntries_nil] at h
    cases h
    rw [transformEntries_nil]
  | cons e rest ih =>
    obtain ⟨k, m⟩ := e
    simp only [List.map_cons, List.nodup_cons] at hnd
    obtain ⟨hknotin, hndrest⟩ := hnd
    have hplm : m.isNestedObject = false := hpl (k, m) (by simp)
    have hplrest : ∀ e ∈ rest, (e : String × FieldMeta).2.isNestedObject = false :=
      fun e he => hpl e (by simp [he])
    have hfldrest : ∀ k2 m2, (k2, m2) ∈ rest → hasOwn o k2 = true →
        ∀ out, transformField env (getProp o k2) m2 (d ++ "." ++ k2) = .ok out →
          transformField env out m2 (d ++ "." ++ k2) = .ok out :=
      fun k2 m2 hm2 => hfld k2 m2 (by simp [hm2])
    rw [transformEntries_cons] at h
    by_cases c1 : (!(hasOwn o k)) = true
    · rw [if_pos c1] at h
      by_cases c2 : (!m.noCheck && (m.required || m.isNestedObject)) = true
      · rw [if_pos c2] at h
        simp at h
      · rw [if_neg c2] at h
        have hsub := transformEntries_keys_sublist h
        have hknotbuilt : k ∉ built.map Prod.fst :=
          fun hc => hknotin (hsub.subset hc)
        have hno : (!(hasOwn (JsVal.obj built) k)) = true := by
          rw [hasOwn_obj, lookupField_eq_none hknotbuilt]
          rfl
        rw [transformEntries_cons, if_pos hno, if_neg c2]
        exact ih hndrest hplrest hfldrest h
    · rw [if_neg c1] at h
      by_cases c3 : isUndefV (getProp o k) = true
      · rw [if_pos c3] at h
        by_cases c4 : (!m.noCheck && m.required) = true
        · rw [if_pos c4] at h
          simp at h
        · rw [if_neg c4] at h
          have hsub := transformEntries_keys_sublist h
          have hknotbuilt : k ∉ built.map Prod.fst :=
            fun hc => hknotin (hsub.subset hc)
          have hno : (!(hasOwn (JsVal.obj built) k)) = true := by
            rw [hasOwn_obj, lookupField_eq_none hknotbuilt]
            rfl
          have c2' : ¬((!m.noCheck && (m.required || m.isNestedObject)) = true) := by
            rw [hplm]
            simp only [Bool.or_false]
            exact c4
          rw [transformEntries_cons, if_pos hno, if_neg c2']
          exact ih hndrest hplrest hfldrest h
      · rw [if_neg c3] at h
        by_cases c5 : isNullV (getProp o k) = true
        · rw [if_pos c5] at h
          by_cases c6 : (m.noCheck || m.nullable) = true
          · rw [if_pos c6] at h
            obtain ⟨tail, htail, hb⟩ := except_map_eq_ok h
            subst hb
            have ihtail := ih hndrest hplrest hfldrest htail
            have hsub := transformEntries_keys_sublist htail
            have hknr : k ∉ rest.map Prod.fst := hknotin
            have hframe := transformEntries_agree
              (agree_cons JsVal.null tail hknr) ihtail
            rw [transformEntries_cons]
            have hhas : hasOwn (.obj ((k, JsVal.null) :: tail)) k = true := by
              rw [hasOwn_obj]
              simp
            have hget : getProp (.obj ((k, JsVal.null) :: tail)) k = .null := by
              rw [getProp_obj]
              simp
            rw [hget]
            simp only [hhas, Bool.not_true, Bool.false_eq_true, if_false]
            simp [isUndefV, isNullV, c6, hframe]
          · rw [if_neg c6] at h
            simp at h
        · rw [if_neg c5] at h
          cases hf : transformField env (getProp o k) m (d ++ "." ++ k) with
          | error e2 =>
            rw [hf] at h
            simp at h
          | ok tv =>
            rw [hf] at h
            simp only [except_bind_ok] at h
            cases hr : transformEntries env o rest d with
            | error e2 =>
              rw [hr] at h
              simp at h
            | ok tail =>
              rw [hr] at h
              simp only [except_bind_ok] at h
              have hbuilt : (k, tv) :: tail = built := by
                cases h
                rfl
              subst hbuilt
              have hhas2 : hasOwn o k = true := by
                cases hcc : hasOwn o k
                · exact absurd (by simp [hcc]) c1
                · rfl
              have hvg1 : getProp o k ≠ .undef := by
                simpa using c3
              have hvg2 : getProp o k ≠ .null := by
                simpa using c5
              have htv := hfld k m (by simp) hhas2 tv hf
              have hsh := transformField_ok_shape hplm hf hvg1 hvg2
              have ihtail := ih hndrest hplrest hfldrest hr
              have hframe := transformEntries_agree
                (agree_cons tv tail hknotin) ihtail
              rw [transformEntries_cons]
              have hhas3 : hasOwn (.obj ((k, tv) :: tail)) k = true := by
                rw [hasOwn_obj]
                simp
              have hget3 : getProp (.obj ((k, tv) :: tail)) k = tv := by
                rw [getProp_obj]
                simp
              rw [hget3]
              simp only [hhas3, Bool.not_true, Bool.false_eq_true, if_false]
              simp [hsh.1, hsh.2, htv, hframe]

/-- The object-shaped case of the idempotence induction: a field-walk
success re-walks to itself. -/
theorem transform_idem_obj_case {env : Env} {o : JsVal} {f : Filter}
    {d : String} {built : List (String × JsVal)}
    (henv : envPlain env) (hf : filterPlain f)
    (hih : ∀ w, sizeOf w < sizeOf o → ∀ (f2 : Filter) (d2 : String) o2,
      filterPlain f2 → transform env w f2 d2 = .ok o2 →
      transform env o2 f2 d2 = .ok o2)
    (hb : transformEntries env o f d = .ok built) :
    transform env (.obj built) f d = .ok (.obj built) := by
  have hfld : ∀ k m, (k, m) ∈ f → hasOwn o k = true →
      ∀ out2, transformField env (getProp o k) m (d ++ "." ++ k)
        = .ok out2 →
        transformField env out2 m (d ++ "." ++ k) = .ok out2 := by
    intro k m hkm hhas out2 hh
    refine transformField_idem henv (hf.2 (k, m) hkm) ?_ hh
    intro w hw f2 d2 o2 hf2 hh2
    have h1 := sizeOf_getProp_lt hhas
    exact hih w (by omega) f2 d2 o2 hf2 hh2
  have hidem := transformEntries_idem hf.1 hf.2 hfld hb
  rw [transform.eq_def]
  simp only [isUndefV, isNullV, Bool.or_self, Bool.or_false,
    Bool.false_eq_true, if_false]
  simp [hidem]

/-- Strong-induction core of the idempotence result: over a plain schema
cache and a plain filter, `transform` is idempotent on its successes for
every value of bounded size. -/
theorem transform_idem_aux :
    ∀ n : Nat, ∀ env : Env, envPlain env → ∀ v : JsVal, sizeOf v ≤ n →
      ∀ (f : Filter) (d : String) (out : JsVal), filterPlain f →
        transform env v f d = .ok out → transform env out f d = .ok out := by
  intro n
  induction n with
  | zero =>
    intro env henv v hv
    exact absurd hv (by cases v <;> simp)
  | succ n ih =>
    intro env henv v hv f d out hf h
    cases v
    case undef =>
      rw [transform.eq_def] at h
      simp only [isUndefV, isNullV, Bool.or_false, if_true] at h
      cases h
      rw [transform.eq_def]
      simp [isUndefV, isNullV]
    case null =>
      rw [transform.eq_def] at h
      simp only [isUndefV, isNullV, Bool.or_true, if_true] at h
      cases h
      rw [transform.eq_def]
      simp [isUndefV, isNullV]
    case arr elems =>
      rw [transform.eq_def] at h
      simp only [isUndefV, isNullV, Bool.or_self, Bool.false_eq_true,
        if_false] at h
      obtain ⟨touts, hte, hout⟩ := except_map_eq_ok h
      subst hout
      have hIHe : ∀ e ∈ elems, ∀ out2, transform env e f d = .ok out2 →
          transform env out2 f d = .ok out2 := by
        intro e he out2 hh
        have h1 : sizeOf e < sizeOf elems := List.sizeOf_lt_of_mem he
        have h2 : sizeOf (JsVal.arr elems) ≤ n + 1 := hv
        have h3 : sizeOf elems < sizeOf (JsVal.arr elems) := by simp
        exact ih env henv e (by omega) f d out2 hf hh
      have hidem := transformElems_idem hIHe hte
      rw [transform.eq_def]
      simp only [isUndefV, isNullV, Bool.or_self, Bool.false_eq_true,
        if_false]
      simp [hidem]
    all_goals (
      rw [transform.eq_def] at h
      simp only [isUndefV, isNullV, Bool.or_self, Bool.or_false,
        Bool.false_eq_true, if_false] at h
      obtain ⟨built, hb, hout⟩ := except_map_eq_ok h
      subst hout
      exact transform_idem_obj_case henv hf
        (fun w hw f2 d2 o2 hf2 hh2 =>
          ih env henv w (by omega) f2 d2 o2 hf2 hh2) hb)

/-- The nested-structure field metadata (empty inline map, optional, not
skip-validation) used to refute claim C8. -/
def nestedOptMeta : FieldMeta :=
  .mk false false false false false false false false true none [] "" []

/-- Counterexample to claim C8: with aNestedStructure field present but
holding the absent-sentinel, the first transform accepts and omits the
field, but re-transforming that output raises `Required field 's' is
missing` (the absent-key check also fires on non-required nested-structure
fields), so transform is not idempotent. -/
theorem transform_not_idempotent :
    transform emptyEnv (.obj [("s", .undef)]) [("s", nestedOptMeta)] "D"
      = .ok (.obj []) ∧
    transform emptyEnv (.obj []) [("s", nestedOptMeta)] "D"
      = .error (missingErr "s" "D" (.obj [])) := by
  constructor <;>
    simp [transform, transformEntries, hasOwn, getProp, lookupField,
      nestedOptMeta, isUndefV, isNullV]

/-- Claim C8 as amended: `transform` is idempotent for schemas free of
NestedStructure fields — in the walked filter and in every schema the
cache can serve — with duplicate-free field names: for every such schema
and every input it accepts, re-applying `transform` to the result returns
the result unchanged (deep equality is structural equality in the model).
With NestedStructure fields idempotence fails, as the counterexample
shows. -/
theorem transform_idempotent_plain (env : Env) (f : Filter) (d : String)
    (v out : JsVal) (henv : envPlain env) (hf : filterPlain f)
    (h : transform env v f d = .ok out) : transform env out f d = .ok out :=
  transform_idem_aux (sizeOf v) env henv v (le_refl _) f d out hf h

/-- Witness for the amended C8: a concrete schema whose coercing first
pass stabilizes on the second pass. -/
theorem transform_idempotent_plain_witness :
    transform emptyEnv (.obj [("id", .str "42"), ("x", .str "y")])
      [("id", FieldMeta.mk true false false false true false false false
        false (some "number") [] "" [])] "D"
      = .ok (.obj [("id", .num 42)]) ∧
    transform emptyEnv (.obj [("id", .num 42)])
      [("id", FieldMeta.mk true false false false true false false false
        false (some "number") [] "" [])] "D"
      = .ok (.obj [("id", .num 42)]) := by
  have henv : envPlain emptyEnv := fun n => ⟨List.nodup_nil, by simp [emptyEnv]⟩
  have hf : filterPlain [("id", FieldMeta.mk true false false false true
      false false false false (some "number") [] "" [])] := by
    constructor
    · simp
    · intro e he
      simp at he
      simp [he]
  have hpar : jsStringToNumber "42" = .num ((42 : ℕ) : ℚ) := rfl
  have h1 : transform emptyEnv (.obj [("id", .str "42"), ("x", .str "y")])
      [("id", FieldMeta.mk true false false false true false false false
        false (some "number") [] "" [])] "D"
      = .ok (.obj [("id", .num 42)]) := by
    simp [transform, transformEntries, transformField, transformPrimitive,
      hasOwn, getProp, lookupField, isUndefV, isNullV, validatePrimitiveType,
      coerceToPrimitiveType, jsToNumber, hpar, FieldMeta.typeCheck]
  exact ⟨h1, transform_idempotent_plain emptyEnv _ "D" _ _ henv hf h1⟩

end FastTransform
